import Mathlib

/-!
# Verification of the invoice-pdf-rs invoice domain model

This file gives a shallow embedding, in Lean 4, of the invoice domain model of
the `invoice-pdf-rs` repository, and proves (or refutes) the frozen claims of
its natural-language specification against that embedding.

The repository contains two revisions of the domain model:

* `src/src/invoice.rs` — the "stored" variant: `LineItem.total` and
  `Invoice.total` / `Invoice.due` are stored fields computed by hand-written
  `build` functions; embedded below in namespace `RootCrate`.
* `src/invoice-pdf/src/invoice.rs` — the "accessor" variant: totals are
  computed on demand by `LineItem::total()`, `Invoice::total()` and
  `Invoice::net_due()`; the builders' `build` functions are the ones generated
  by `derive_builder` (required fields checked in declared field order);
  embedded below in namespace `PdfCrate`.

Arbitrary-precision decimal amounts (the `bigdecimal::BigDecimal` values used
by the code) are modelled as a pair of an unbounded integer and a decimal
scale, with the arithmetic operations the code uses (`+`, `-`, `i32 * BigDecimal`,
`Iterator::sum`) translated from the `bigdecimal` crate: the value denoted by
`⟨intVal, scale⟩` is `intVal * 10 ^ (-scale)`.

Timezone-aware timestamps (`chrono::DateTime<FixedOffset>`) are modelled as a
civil date-time plus an offset in seconds.  The model excludes chrono's
leap-second representation (`nano` is kept below `10^9`); everything else
(year, offset and field ranges) follows chrono.

Builders are records of `Option`-al fields, and `build` returns
`Except BuilderError _`.  The two `Local::now()` captures performed by
`InvoiceBuilder::build` (defaults of `created_datetime` and
`net_due_datetime`) are passed to the embedded `build` as two explicit
arguments.
-/

/-! ## BigDecimal: model of `bigdecimal::BigDecimal`

A `BigDecimal` is a `num_bigint::BigInt` (here: `Int`) together with an `i64`
scale (here: `Int`; the claims never exercise scale overflow); the denoted
number is `intVal * 10 ^ (-scale)`. -/

structure BigDecimal where
  intVal : Int
  scale : Int
  deriving DecidableEq, Repr

namespace BigDecimal

/-- Models `BigDecimal::from(n)` for an integer `n`: scale 0. -/
def fromInt (n : Int) : BigDecimal := ⟨n, 0⟩

/-- The exact rational value denoted by a `BigDecimal`.  `bigdecimal`'s
`PartialEq`/`Ord` compare these values (after aligning scales). -/
def val (x : BigDecimal) : ℚ := (x.intVal : ℚ) * (10 : ℚ) ^ (-x.scale)

/-- Models `bigdecimal`'s `impl Add`: align both operands to the larger scale and add
the aligned integer parts. -/
def add (x y : BigDecimal) : BigDecimal :=
  let s := max x.scale y.scale
  ⟨x.intVal * 10 ^ (s - x.scale).toNat + y.intVal * 10 ^ (s - y.scale).toNat, s⟩

/-- Models `bigdecimal`'s `impl Sub`: align both operands to the larger scale and
subtract the aligned integer parts. -/
def sub (x y : BigDecimal) : BigDecimal :=
  let s := max x.scale y.scale
  ⟨x.intVal * 10 ^ (s - x.scale).toNat - y.intVal * 10 ^ (s - y.scale).toNat, s⟩

/-- Models `i32 * BigDecimal` (and `BigDecimal * i32`): multiply the integer part,
keep the scale. -/
def mulInt (q : Int) (x : BigDecimal) : BigDecimal := ⟨q * x.intVal, x.scale⟩

/-- Models `Iterator::sum` for `BigDecimal`: fold `+` starting from zero. -/
def lsum (L : List BigDecimal) : BigDecimal := L.foldl add (fromInt 0)

/-- Models `bigdecimal`'s `impl PartialEq`: equality after aligning both operands to
the common (larger) scale. -/
def beq (x y : BigDecimal) : Prop :=
  let s := max x.scale y.scale
  x.intVal * 10 ^ (s - x.scale).toNat = y.intVal * 10 ^ (s - y.scale).toNat

instance (x y : BigDecimal) : Decidable (beq x y) := by
  unfold beq; infer_instance

end BigDecimal

/-! ## Timestamps: model of `chrono::DateTime<FixedOffset>`

A timezone-aware timestamp is a valid proleptic-Gregorian civil date-time
together with a fixed offset (`local − UTC`, in seconds, strictly between
±86400, as `chrono::FixedOffset` requires).  Field ranges follow chrono's
`NaiveDate`/`NaiveTime`; the model keeps `nano < 10^9`, i.e. it excludes
chrono's leap-second representation. -/

/-- chrono's leap-year test `year % 4 == 0 && (year % 100 != 0 || year % 400 == 0)`
(the `= 0` tests agree between Rust's truncating `%` and Lean's `Int.emod`). -/
def isLeapYear (y : Int) : Bool := y % 4 = 0 && (y % 100 ≠ 0 || y % 400 = 0)

/-- Number of days in a month of the proleptic Gregorian calendar. -/
def daysInMonth (y : Int) (m : Nat) : Nat :=
  if m = 2 then (if isLeapYear y then 29 else 28)
  else if m = 4 ∨ m = 6 ∨ m = 9 ∨ m = 11 then 30 else 31

/-- Validity of the fields of a `chrono::DateTime<FixedOffset>`. -/
def DTValid (year : Int) (month day hour minute second nano : Nat) (offset : Int) : Prop :=
  1 ≤ month ∧ month ≤ 12 ∧ 1 ≤ day ∧ day ≤ daysInMonth year month ∧
  hour < 24 ∧ minute < 60 ∧ second < 60 ∧ nano < 1000000000 ∧
  -86400 < offset ∧ offset < 86400 ∧ -262144 ≤ year ∧ year ≤ 262143

instance (year : Int) (month day hour minute second nano : Nat) (offset : Int) :
    Decidable (DTValid year month day hour minute second nano offset) := by
  unfold DTValid; infer_instance

/-- Model of `chrono::DateTime<FixedOffset>`: civil fields plus offset. -/
structure DateTimeFO where
  year : Int
  month : Nat
  day : Nat
  hour : Nat
  minute : Nat
  second : Nat
  nano : Nat
  offset : Int
  valid : DTValid year month day hour minute second nano offset

/-- Days since 1970-01-01 of a civil date (Howard Hinnant's `days_from_civil`;
`Int.fdiv` is floor division, which the C form emulates by shifting negative
years). -/
def daysFromCivil (y : Int) (m d : Nat) : Int :=
  let y' : Int := if m ≤ 2 then y - 1 else y
  let era : Int := Int.fdiv y' 400
  let yoe : Int := y' - era * 400
  let mp : Int := (if 2 < m then (m : Int) - 3 else (m : Int) + 9)
  let doy : Int := (153 * mp + 2) / 5 + (d : Int) - 1
  let doe : Int := yoe * 365 + yoe / 4 - yoe / 100 + doy
  era * 146097 + doe - 719468

/-- The instant denoted by a timestamp: seconds since the epoch (shifting the
local civil time by the offset) paired with the nanosecond part.  chrono's
`PartialEq` on `DateTime` compares exactly this data. -/
def DateTimeFO.toInstant (t : DateTimeFO) : Int × Nat :=
  (daysFromCivil t.year t.month t.day * 86400
    + (t.hour : Int) * 3600 + (t.minute : Int) * 60 + (t.second : Int) - t.offset,
   t.nano)

/-- chrono's `PartialEq` for `DateTime`: equality of instants. -/
def DateTimeFO.instEq (t u : DateTimeFO) : Prop := t.toInstant = u.toInstant

/-! ## Builder plumbing shared by both crate revisions

`derive_builder` generates, for every builder, an error enum with the two
variants below; all the hand-written `build` functions reuse the generated
`UninitializedField` variant.  The per-entity error types
(`LineItemBuilderError`, `PartyBuilderError`, …) are structurally identical,
so one Lean type models all of them. -/

inductive BuilderError where
  | UninitializedField (name : String)
  | ValidationError (msg : String)
  deriving DecidableEq, Repr

/-- Rust's `Option::ok_or` followed by `?`, as used in the `build` functions. -/
def okOr {α : Type} (o : Option α) (e : BuilderError) : Except BuilderError α :=
  match o with
  | some a => .ok a
  | none => .error e

/-! ## `Party` and `Address`

These two entities and their builders are declared identically in
`src/src/invoice.rs` and `src/invoice-pdf/src/invoice.rs` (plain
`derive_builder` builders, no custom build logic), so they are modelled once.
The generated `build` checks required fields in declared field order. -/

structure Address where
  line1 : String
  line2 : Option String
  city : String
  province_code : String
  postal_code : String
  deriving DecidableEq, Repr

structure AddressBuilder where
  line1 : Option String := none
  line2 : Option (Option String) := none
  city : Option String := none
  province_code : Option String := none
  postal_code : Option String := none
  deriving DecidableEq, Repr

def AddressBuilder.build (b : AddressBuilder) : Except BuilderError Address := do
  let line1 ← okOr b.line1 (.UninitializedField "line1")
  let line2 := b.line2.getD none
  let city ← okOr b.city (.UninitializedField "city")
  let province_code ← okOr b.province_code (.UninitializedField "province_code")
  let postal_code ← okOr b.postal_code (.UninitializedField "postal_code")
  return { line1, line2, city, province_code, postal_code }

structure Party where
  name : String
  phone : Option String
  email : Option String
  address : Option Address
  deriving DecidableEq, Repr

structure PartyBuilder where
  name : Option String := none
  phone : Option (Option String) := none
  email : Option (Option String) := none
  address : Option (Option Address) := none
  deriving DecidableEq, Repr

def PartyBuilder.build (b : PartyBuilder) : Except BuilderError Party := do
  let name ← okOr b.name (.UninitializedField "name")
  let phone := b.phone.getD none
  let email := b.email.getD none
  let address := b.address.getD none
  return { name, phone, email, address }

/-! ## `RootCrate`: the stored-field variant (`src/src/invoice.rs`, `src/src/error.rs`)

`LineItem.total`, `Invoice.total` and `Invoice.due` are stored fields,
computed by the hand-written `build` functions (`build_fn(skip)`). -/

namespace RootCrate

structure LineItem where
  sku : String
  title : String
  quantity : Int
  price : BigDecimal
  total : BigDecimal
  deriving DecidableEq, Repr

structure LineItemBuilder where
  sku : Option String := none
  title : Option String := none
  quantity : Option Int := none
  price : Option BigDecimal := none
  deriving DecidableEq, Repr

/-- Hand-written `LineItemBuilder::build`: note the check order
`quantity`, `price`, `sku`, `title` (not the declared field order), and the
stored `total = quantity * price`. -/
def LineItemBuilder.build (b : LineItemBuilder) : Except BuilderError LineItem := do
  let quantity ← okOr b.quantity (.UninitializedField "quantity")
  let price ← okOr b.price (.UninitializedField "price")
  let sku ← okOr b.sku (.UninitializedField "sku")
  let title ← okOr b.title (.UninitializedField "title")
  return { total := BigDecimal.mulInt quantity price, sku, title, quantity, price }

structure Invoice where
  id : String
  created_datetime : DateTimeFO
  net_due_datetime : DateTimeFO
  receiver : Party
  sender : Party
  logo : Option String
  line_items : List LineItem
  paid : BigDecimal
  total : BigDecimal
  due : BigDecimal
  acct_id : Option String
  purchase_order : Option String

/-- Models `Invoice::net_due`: recompute `Σ quantity * price` over the line items and
subtract `paid`. -/
def Invoice.net_due (inv : Invoice) : BigDecimal :=
  BigDecimal.sub
    (BigDecimal.lsum (inv.line_items.map (fun l => BigDecimal.mulInt l.quantity l.price)))
    inv.paid

structure InvoiceBuilder where
  id : Option String := none
  created_datetime : Option DateTimeFO := none
  net_due_datetime : Option DateTimeFO := none
  receiver : Option Party := none
  sender : Option Party := none
  logo : Option (Option String) := none
  line_items : Option (List LineItem) := none
  paid : Option BigDecimal := none
  acct_id : Option (Option String) := none
  purchase_order : Option (Option String) := none

/-- Models `InvoiceBuilder::add_line`: push onto the list, starting a singleton list
when no line item has been added yet. -/
def InvoiceBuilder.add_line (b : InvoiceBuilder) (line : LineItem) : InvoiceBuilder :=
  match b.line_items with
  | some l => { b with line_items := some (l ++ [line]) }
  | none => { b with line_items := some [line] }

/-- Hand-written `InvoiceBuilder::build`.  The two `Local::now()` captures
(defaults of `created_datetime` and `net_due_datetime`) are the explicit
arguments `now_c` and `now_d`. -/
def InvoiceBuilder.build (b : InvoiceBuilder) (now_c now_d : DateTimeFO) :
    Except BuilderError Invoice := do
  let id ← okOr b.id (.UninitializedField "id")
  let created_datetime := b.created_datetime.getD now_c
  let net_due_datetime := b.net_due_datetime.getD now_d
  let receiver ← okOr b.receiver (.UninitializedField "receiver")
  let sender ← okOr b.sender (.UninitializedField "sender")
  let logo := b.logo.getD none
  let line_items := b.line_items.getD []
  let paid := b.paid.getD (BigDecimal.fromInt 0)
  let acct_id := b.acct_id.getD none
  let purchase_order := b.purchase_order.getD none
  let total := BigDecimal.lsum (line_items.map LineItem.total)
  let due := BigDecimal.sub total paid
  return { id, created_datetime, net_due_datetime, receiver, sender, logo,
           line_items, paid, due, total, acct_id, purchase_order }

/-- Models `ErrorKind` of `src/src/error.rs`; the wrapped foreign error values are
modelled by their `Debug` rendering. -/
inductive ErrorKind where
  | Io (repr : String)
  | FantocciniNewSession (repr : String)
  | FantocciniCmdError (repr : String)
  | FantocciniPrintError (repr : String)
  | Other (msg : String)
  deriving DecidableEq, Repr

structure Error where
  kind : ErrorKind
  context : List String
  deriving DecidableEq, Repr

/-- Models `Error::add_context`: push the new context entry at the end. -/
def Error.add_context (e : Error) (context : String) : Error :=
  { e with context := e.context ++ [context] }

/-- Models `impl Display for Error`: reverse the accumulated context; an empty list
renders as "no context", otherwise the entries are joined with " -> ". -/
def Error.display (e : Error) : String :=
  let context := e.context.reverse
  if context.isEmpty then "no context" else String.intercalate " -> " context

end RootCrate

/-! ## `PdfCrate`: the accessor variant (`src/invoice-pdf/src/invoice.rs`)

No stored totals; `LineItem::total()`, `Invoice::total()` and
`Invoice::net_due()` recompute on every call.  All `build` functions are the
`derive_builder`-generated ones (required fields checked in declared field
order, `#[builder(default = ...)]` expressions applied for absent optional
fields). -/

namespace PdfCrate

structure LineItem where
  sku : String
  title : String
  quantity : Int
  price : BigDecimal
  deriving DecidableEq, Repr

/-- Models `LineItem::total()`: `&self.price * self.quantity`, computed on demand. -/
def LineItem.total (l : LineItem) : BigDecimal := BigDecimal.mulInt l.quantity l.price

structure LineItemBuilder where
  sku : Option String := none
  title : Option String := none
  quantity : Option Int := none
  price : Option BigDecimal := none
  deriving DecidableEq, Repr

/-- Models `derive_builder`-generated `build`: declared field order
`sku`, `title`, `quantity`, `price`. -/
def LineItemBuilder.build (b : LineItemBuilder) : Except BuilderError LineItem := do
  let sku ← okOr b.sku (.UninitializedField "sku")
  let title ← okOr b.title (.UninitializedField "title")
  let quantity ← okOr b.quantity (.UninitializedField "quantity")
  let price ← okOr b.price (.UninitializedField "price")
  return { sku, title, quantity, price }

structure Invoice where
  id : String
  created_datetime : DateTimeFO
  net_due_datetime : DateTimeFO
  receiver : Party
  sender : Party
  logo : Option String
  line_items : List LineItem
  paid : BigDecimal
  acct_id : Option String
  purchase_order : Option String

/-- Models `Invoice::total()`: `Σ quantity * price` over the line items. -/
def Invoice.total (inv : Invoice) : BigDecimal :=
  BigDecimal.lsum (inv.line_items.map (fun l => BigDecimal.mulInt l.quantity l.price))

/-- Models `Invoice::net_due()`: `Σ quantity * price` minus `paid`. -/
def Invoice.net_due (inv : Invoice) : BigDecimal :=
  BigDecimal.sub
    (BigDecimal.lsum (inv.line_items.map (fun l => BigDecimal.mulInt l.quantity l.price)))
    inv.paid

structure InvoiceBuilder where
  id : Option String := none
  created_datetime : Option DateTimeFO := none
  net_due_datetime : Option DateTimeFO := none
  receiver : Option Party := none
  sender : Option Party := none
  logo : Option (Option String) := none
  line_items : Option (List LineItem) := none
  paid : Option BigDecimal := none
  acct_id : Option (Option String) := none
  purchase_order : Option (Option String) := none

/-- Models `InvoiceBuilder::add_line` (identical to the `RootCrate` version). -/
def InvoiceBuilder.add_line (b : InvoiceBuilder) (line : LineItem) : InvoiceBuilder :=
  match b.line_items with
  | some l => { b with line_items := some (l ++ [line]) }
  | none => { b with line_items := some [line] }

/-- Models `derive_builder`-generated `InvoiceBuilder::build` with the declared
defaults (`Local::now().into()` twice — the explicit arguments `now_c`,
`now_d` — plus `None`, `Vec::new()` and `BigDecimal::from(0)`). -/
def InvoiceBuilder.build (b : InvoiceBuilder) (now_c now_d : DateTimeFO) :
    Except BuilderError Invoice := do
  let id ← okOr b.id (.UninitializedField "id")
  let created_datetime := b.created_datetime.getD now_c
  let net_due_datetime := b.net_due_datetime.getD now_d
  let receiver ← okOr b.receiver (.UninitializedField "receiver")
  let sender ← okOr b.sender (.UninitializedField "sender")
  let logo := b.logo.getD none
  let line_items := b.line_items.getD []
  let paid := b.paid.getD (BigDecimal.fromInt 0)
  let acct_id := b.acct_id.getD none
  let purchase_order := b.purchase_order.getD none
  return { id, created_datetime, net_due_datetime, receiver, sender, logo,
           line_items, paid, acct_id, purchase_order }

end PdfCrate

/-! ## Spec-side helper definitions

Value-level sums, the declared-order missing-field lists used by claim C3,
and the bridge between the two crate revisions used by claim C6. -/

/-- The exact value `Σ qᵢ * pᵢ` over a list of stored-variant line items. -/
def RootCrate.lineItemsQP (L : List RootCrate.LineItem) : ℚ :=
  (L.map (fun l => (l.quantity : ℚ) * l.price.val)).sum

/-- The exact value `Σ qᵢ * pᵢ` over a list of accessor-variant line items. -/
def PdfCrate.lineItemsQP (L : List PdfCrate.LineItem) : ℚ :=
  (L.map (fun l => (l.quantity : ℚ) * l.price.val)).sum

/-- A stored-variant line item is well formed when its frozen `total` field
denotes `quantity * price`; every `LineItem` produced by
`LineItemBuilder::build` is well formed (the field cannot be set otherwise). -/
def RootCrate.LineItem.WF (l : RootCrate.LineItem) : Prop :=
  l.total.val = (l.quantity : ℚ) * l.price.val

instance (l : RootCrate.LineItem) : Decidable l.WF := by
  unfold RootCrate.LineItem.WF; infer_instance

/-- Names of the missing required fields of an `AddressBuilder`, in declared
field order (`line2` is optional). -/
def AddressBuilder.missingDeclared (b : AddressBuilder) : List String :=
  (if b.line1 = none then ["line1"] else []) ++
  (if b.city = none then ["city"] else []) ++
  (if b.province_code = none then ["province_code"] else []) ++
  (if b.postal_code = none then ["postal_code"] else [])

/-- Names of the missing required fields of a `PartyBuilder` (only `name` is
required). -/
def PartyBuilder.missingDeclared (b : PartyBuilder) : List String :=
  if b.name = none then ["name"] else []

/-- Names of the missing required fields of a `LineItemBuilder`, in declared
field order (`sku`, `title`, `quantity`, `price`) — the order claimed by the
specification. -/
def RootCrate.LineItemBuilder.missingDeclared (b : RootCrate.LineItemBuilder) : List String :=
  (if b.sku = none then ["sku"] else []) ++
  (if b.title = none then ["title"] else []) ++
  (if b.quantity = none then ["quantity"] else []) ++
  (if b.price = none then ["price"] else [])

/-- Names of the missing required fields of the stored-variant
`LineItemBuilder`, in the order the hand-written `build` actually checks them
(`quantity`, `price`, `sku`, `title`). -/
def RootCrate.LineItemBuilder.missingChecked (b : RootCrate.LineItemBuilder) : List String :=
  (if b.quantity = none then ["quantity"] else []) ++
  (if b.price = none then ["price"] else []) ++
  (if b.sku = none then ["sku"] else []) ++
  (if b.title = none then ["title"] else [])

/-- Names of the missing required fields of the accessor-variant
`LineItemBuilder`, in declared field order (which is also the order the
`derive_builder`-generated `build` checks them). -/
def PdfCrate.LineItemBuilder.missingDeclared (b : PdfCrate.LineItemBuilder) : List String :=
  (if b.sku = none then ["sku"] else []) ++
  (if b.title = none then ["title"] else []) ++
  (if b.quantity = none then ["quantity"] else []) ++
  (if b.price = none then ["price"] else [])

/-- Names of the missing required fields of the stored-variant
`InvoiceBuilder`, in declared field order (`id`, `receiver`, `sender` are the
required fields). -/
def RootCrate.InvoiceBuilder.missingDeclared (b : RootCrate.InvoiceBuilder) : List String :=
  (if b.id = none then ["id"] else []) ++
  (if b.receiver = none then ["receiver"] else []) ++
  (if b.sender = none then ["sender"] else [])

/-- Names of the missing required fields of the accessor-variant
`InvoiceBuilder`, in declared field order. -/
def PdfCrate.InvoiceBuilder.missingDeclared (b : PdfCrate.InvoiceBuilder) : List String :=
  (if b.id = none then ["id"] else []) ++
  (if b.receiver = none then ["receiver"] else []) ++
  (if b.sender = none then ["sender"] else [])

/-- Forget the stored `total` of a stored-variant line item, yielding the
corresponding accessor-variant line item. -/
def PdfCrate.LineItem.ofRoot (l : RootCrate.LineItem) : PdfCrate.LineItem :=
  ⟨l.sku, l.title, l.quantity, l.price⟩

/-- Forget the stored `total`/`due` of a stored-variant invoice, yielding the
corresponding accessor-variant invoice. -/
def PdfCrate.Invoice.ofRoot (inv : RootCrate.Invoice) : PdfCrate.Invoice :=
  ⟨inv.id, inv.created_datetime, inv.net_due_datetime, inv.receiver, inv.sender,
   inv.logo, inv.line_items.map PdfCrate.LineItem.ofRoot, inv.paid,
   inv.acct_id, inv.purchase_order⟩

/-- Translate a stored-variant invoice-builder state to the accessor variant
(same field inputs). -/
def PdfCrate.InvoiceBuilder.ofRoot (b : RootCrate.InvoiceBuilder) : PdfCrate.InvoiceBuilder :=
  ⟨b.id, b.created_datetime, b.net_due_datetime, b.receiver, b.sender, b.logo,
   b.line_items.map (List.map PdfCrate.LineItem.ofRoot), b.paid,
   b.acct_id, b.purchase_order⟩

/-- A sample timestamp (2026-02-09T12:00:00+00:00), used by the witnesses. -/
def dt0 : DateTimeFO := ⟨2026, 2, 9, 12, 0, 0, 0, 0, by decide⟩

/-! ## Decimal characters and digit strings -/

/-- The ASCII digit character for `d` (meaningful for `d < 10`). -/
def dChar (d : Nat) : Char := Char.ofNat (48 + d)

/-- Is `c` an ASCII digit (`'0'..'9'`)? -/
def isDigitChar (c : Char) : Bool := 48 ≤ c.toNat && c.toNat ≤ 57

/-- Numeric value of an ASCII digit character. -/
def charVal (c : Char) : Nat := c.toNat - 48

/-- Accumulating decimal read of a digit string (big-endian). -/
def readNatAux (acc : Nat) (cs : List Char) : Nat :=
  cs.foldl (fun a c => a * 10 + charVal c) acc

/-- Decimal value of a digit string (big-endian). -/
def readNat (cs : List Char) : Nat := readNatAux 0 cs

/-- Little-endian base-10 digits of `n`, by fuel-based structural recursion
(so that the kernel can evaluate it; `natDigitsRev_eq_digits` identifies it
with `Nat.digits 10 n` for sufficient fuel). -/
def natDigitsRev (fuel n : Nat) : List Nat :=
  match fuel with
  | 0 => []
  | fuel + 1 => if n = 0 then [] else n % 10 :: natDigitsRev fuel (n / 10)

/-- Big-endian decimal digit string of `n` (num-bigint's `to_str_radix 10`;
`0` renders as `"0"`). -/
def natStr (n : Nat) : List Char :=
  if n = 0 then ['0'] else ((natDigitsRev (n + 1) n).map dChar).reverse

/-- Zero-padded fixed-width decimal rendering (width `w`, big-endian). -/
def padDigits : Nat → Nat → List Char
  | 0, _ => []
  | w + 1, n => dChar (n / 10 ^ w % 10) :: padDigits w n

/-! ## `bigdecimal` string codec

`BigDecimal.toStr` models `impl Display for BigDecimal` (`to_string`, no
precision), `BigDecimal.fmtPrec2` the same `Display` with precision 2 (the
classic algorithm: truncate or zero-pad the fractional part, no rounding), and
`BigDecimal.fromStr` models `impl FromStr` (`from_str_radix 10`: optional
`e`/`E` exponent, optional decimal point, `BigInt` digit parse with optional
sign, `i64` exponent). -/

namespace BigDecimal

/-- Models `Display`: split the absolute digit string around the decimal point as
directed by `scale` (`scale ≥ len`: leading `"0."` plus zero padding;
`scale < 0`: append zeros; otherwise split in place), apply the requested
precision to the fractional part, drop an empty fractional part, and prepend
the sign. -/
def fmtWith (precision : Option Nat) (x : BigDecimal) : String :=
  let absInt := natStr x.intVal.natAbs
  let len : Int := absInt.length
  let bodyPair : List Char × List Char :=
    if len ≤ x.scale then
      (['0'], List.replicate (x.scale - len).toNat '0' ++ absInt)
    else if len < len - x.scale then
      (absInt ++ List.replicate (-x.scale).toNat '0', [])
    else
      (absInt.take (len - x.scale).toNat, absInt.drop (len - x.scale).toNat)
  let after : List Char :=
    match precision with
    | none => bodyPair.2
    | some p =>
        if bodyPair.2.length < p then bodyPair.2 ++ List.replicate (p - bodyPair.2.length) '0'
        else bodyPair.2.take p
  let complete := if after = [] then bodyPair.1 else bodyPair.1 ++ '.' :: after
  ⟨if x.intVal < 0 then '-' :: complete else complete⟩

/-- Models `BigDecimal::to_string` (`Display` without precision). -/
def toStr (x : BigDecimal) : String := fmtWith none x

/-- Models `format!("{:.2}", x)` (`Display` with precision 2). -/
def fmtPrec2 (x : BigDecimal) : String := fmtWith (some 2) x

end BigDecimal

/-- Split at the first `'e'`/`'E'` (Rust `s.find(['e', 'E'])`), returning the
part before it and, when found, the part after it. -/
def splitOnExp : List Char → List Char × Option (List Char)
  | [] => ([], none)
  | c :: rest =>
      if c = 'e' ∨ c = 'E' then ([], some rest)
      else
        let p := splitOnExp rest
        (c :: p.1, p.2)

/-- Split at the first `'.'` (Rust `s.find('.')`), returning the part before
it and, when found, the part after it. -/
def splitOnDot : List Char → List Char × Option (List Char)
  | [] => ([], none)
  | c :: rest =>
      if c = '.' then ([], some rest)
      else
        let p := splitOnDot rest
        (c :: p.1, p.2)

/-- A nonempty all-digit string read as a natural number; `none` otherwise. -/
def parseNatDigits (cs : List Char) : Option Nat :=
  if cs ≠ [] ∧ cs.all (fun c => isDigitChar c) then some (readNat cs) else none

/-- Models `num_bigint::BigInt` decimal parse: optional sign, then at least one
digit. -/
def parseBigInt (cs : List Char) : Option Int :=
  match cs with
  | [] => none
  | c :: rest =>
      if c = '+' then (parseNatDigits rest).map (fun n => (n : Int))
      else if c = '-' then (parseNatDigits rest).map (fun n => -(n : Int))
      else (parseNatDigits (c :: rest)).map (fun n => (n : Int))

/-- Models `i64::from_str`: optional sign, at least one digit, value within the
`i64` range. -/
def parseI64 (cs : List Char) : Option Int :=
  match parseBigInt cs with
  | none => none
  | some v =>
      if -9223372036854775808 ≤ v ∧ v ≤ 9223372036854775807 then some v else none

/-- Models `BigDecimal::from_str` = `from_str_radix 10`: split off an optional
`e`/`E` exponent (parsed as `i64`), reject an empty base, join the digits
around an optional decimal point (`digits`, `decimal_offset`), parse the
digits as a signed `BigInt`, and set `scale = decimal_offset - exponent`. -/
def BigDecimal.fromStr (s : String) : Option BigDecimal :=
  let p := splitOnExp s.data
  let expVal : Option Int :=
    match p.2 with
    | none => some 0
    | some e => parseI64 e
  match expVal with
  | none => none
  | some exp =>
      if p.1 = [] then none
      else
        let q := splitOnDot p.1
        let digits : List Char := match q.2 with
          | none => q.1
          | some trail => q.1 ++ trail
        let decimalOffset : Int := match q.2 with
          | none => 0
          | some trail => (trail.length : Int)
        match parseBigInt digits with
        | none => none
        | some v => some ⟨v, decimalOffset - exp⟩

/-! ## RFC 3339 codec for timestamps

`toRfc3339` models chrono's `DateTime::to_rfc3339` (`write_rfc3339` with
`SecondsFormat::AutoSi` and a numeric `±HH:MM` offset: years `0..=9999` as
four zero-padded digits, out-of-range years with an explicit sign
(`{:+05}`), offsets truncated to whole minutes).  `parseRfc3339` models
chrono's `DateTime::parse_from_rfc3339` (strict four-digit unsigned year,
`'T'`/`'t'`/`' '` separator, optional fraction of at least one digit with the
first nine digits significant, `Z`/`z` or `±HH:MM` offset, nothing trailing,
then the `Parsed` range validation — leap seconds excluded by the model). -/

/-- Fractional-seconds part under `SecondsFormat::AutoSi`: empty when zero,
else 3, 6 or 9 digits depending on trailing decimal zeros. -/
def fracChars (nano : Nat) : List Char :=
  if nano = 0 then []
  else if nano % 1000000 = 0 then '.' :: padDigits 3 (nano / 1000000)
  else if nano % 1000 = 0 then '.' :: padDigits 6 (nano / 1000)
  else '.' :: padDigits 9 nano

/-- Numeric offset rendering `±HH:MM` (sub-minute seconds truncated). -/
def offsetChars (off : Int) : List Char :=
  let a := off.natAbs
  (if off < 0 then '-' else '+') ::
    (padDigits 2 (a / 3600) ++ ':' :: padDigits 2 (a / 60 % 60))

/-- Year rendering: `0..=9999` as four zero-padded digits, otherwise an
explicit sign followed by the zero-padded (width ≥ 4) magnitude. -/
def yearChars (y : Int) : List Char :=
  if 0 ≤ y ∧ y ≤ 9999 then padDigits 4 y.toNat
  else
    (if y < 0 then '-' else '+') ::
      (if y.natAbs < 10000 then padDigits 4 y.natAbs else natStr y.natAbs)

/-- chrono's `DateTime::to_rfc3339`. -/
def toRfc3339 (t : DateTimeFO) : String :=
  ⟨yearChars t.year ++ '-' :: (padDigits 2 t.month ++ '-' :: (padDigits 2 t.day ++
    'T' :: (padDigits 2 t.hour ++ ':' :: (padDigits 2 t.minute ++ ':' :: (padDigits 2 t.second ++
      (fracChars t.nano ++ offsetChars t.offset))))))⟩

/-- Read one ASCII digit. -/
def readDigit (c : Char) : Option Nat :=
  if isDigitChar c then some (charVal c) else none

/-- Read exactly two digits. -/
def read2 : List Char → Option (Nat × List Char)
  | c1 :: c2 :: rest =>
      match readDigit c1, readDigit c2 with
      | some d1, some d2 => some (d1 * 10 + d2, rest)
      | _, _ => none
  | _ => none

/-- Read exactly four digits (the strict RFC 3339 year). -/
def read4 : List Char → Option (Nat × List Char)
  | c1 :: c2 :: c3 :: c4 :: rest =>
      match readDigit c1, readDigit c2, readDigit c3, readDigit c4 with
      | some d1, some d2, some d3, some d4 =>
          some (d1 * 1000 + d2 * 100 + d3 * 10 + d4, rest)
      | _, _, _, _ => none
  | _ => none

/-- Expect one specific character. -/
def expectChar (c : Char) : List Char → Option (List Char)
  | d :: rest => if d = c then some rest else none
  | [] => none

/-- Expect the date-time separator (`'T'`, `'t'` or `' '`). -/
def expectSep : List Char → Option (List Char)
  | d :: rest => if d = 'T' ∨ d = 't' ∨ d = ' ' then some rest else none
  | [] => none

/-- The leading run of ASCII digits, and the remainder. -/
def takeDigits : List Char → List Char × List Char
  | [] => ([], [])
  | c :: rest =>
      if isDigitChar c then
        let p := takeDigits rest
        (c :: p.1, p.2)
      else ([], c :: rest)

/-- Optional fractional seconds: after a `'.'`, at least one digit; the first
nine digits are scaled to nanoseconds and any further digits are consumed and
ignored (chrono `scan::nanosecond`). -/
def readFrac (cs : List Char) : Option (Nat × List Char) :=
  match cs with
  | c :: rest =>
      if c = '.' then
        let p := takeDigits rest
        if p.1 = [] then none
        else some (readNat (p.1.take 9) * 10 ^ (9 - (p.1.take 9).length), p.2)
      else some (0, cs)
  | [] => some (0, [])

/-- The trailing offset: `Z`/`z`, or `±HH:MM` with `MM < 60` and a total
strictly below 24 hours (`FixedOffset::east_opt`); nothing may follow. -/
def readOffset (cs : List Char) : Option Int :=
  match cs with
  | [c] => if c = 'Z' ∨ c = 'z' then some 0 else none
  | [sign, c1, c2, colon, c3, c4] =>
      if (sign = '+' ∨ sign = '-') ∧ colon = ':' then
        match readDigit c1, readDigit c2, readDigit c3, readDigit c4 with
        | some d1, some d2, some d3, some d4 =>
            let hh := d1 * 10 + d2
            let mm := d3 * 10 + d4
            if mm < 60 ∧ hh * 3600 + mm * 60 < 86400 then
              some (if sign = '-' then -((hh * 3600 + mm * 60 : Nat) : Int)
                    else ((hh * 3600 + mm * 60 : Nat) : Int))
            else none
        | _, _, _, _ => none
      else none
  | _ => none

/-- Range validation of the parsed fields (chrono's `Parsed::to_datetime`
via `NaiveDate::from_ymd_opt` / `NaiveTime::from_hms_nano_opt` /
`FixedOffset::east_opt`; leap seconds excluded by the model). -/
def mkDT (y : Int) (mo d h mi sec nano : Nat) (off : Int) : Option DateTimeFO :=
  if hv : DTValid y mo d h mi sec nano off then
    some ⟨y, mo, d, h, mi, sec, nano, off, hv⟩
  else none

/-- chrono's `DateTime::parse_from_rfc3339`. -/
def parseRfc3339 (s : String) : Option DateTimeFO := do
  let (y, r) ← read4 s.data
  let r ← expectChar '-' r
  let (mo, r) ← read2 r
  let r ← expectChar '-' r
  let (d, r) ← read2 r
  let r ← expectSep r
  let (h, r) ← read2 r
  let r ← expectChar ':' r
  let (mi, r) ← read2 r
  let r ← expectChar ':' r
  let (sec, r) ← read2 r
  let (nano, r) ← readFrac r
  let off ← readOffset r
  mkDT (y : Int) mo d h mi sec nano off

/-! ## The serde field codecs of `src/invoice-pdf/src/invoice.rs`

The error kinds follow the specification's taxonomy (`MalformedNumber`,
`MalformedTimestamp`); the code surfaces the underlying parse error through
`serde::de::Error::custom`. -/

inductive DecodeError where
  | MalformedNumber (raw : String)
  | MalformedTimestamp (raw : String)
  deriving DecidableEq, Repr

/-- Models `serialize_bigdecimal`: serialize `value.to_string()`. -/
def serialize_bigdecimal (value : BigDecimal) : String := value.toStr

/-- Models `serialize_datetime`: serialize `value.to_rfc3339()`. -/
def serialize_datetime (value : DateTimeFO) : String := toRfc3339 value

/-- Models `deserialize_bigdecimal`: `BigDecimal::from_str(&s).map_err(custom)`. -/
def deserialize_bigdecimal (s : String) : Except DecodeError BigDecimal :=
  match BigDecimal.fromStr s with
  | some v => .ok v
  | none => .error (.MalformedNumber s)

/-- Models `deserialize_datetime`: `DateTime::parse_from_rfc3339(&s).map_err(custom)`. -/
def deserialize_datetime (s : String) : Except DecodeError DateTimeFO :=
  match parseRfc3339 s with
  | some v => .ok v
  | none => .error (.MalformedTimestamp s)

/-! ## The template filters of `src/src/template_env.rs` -/

/-- Models `format_ymd`: parse the input as RFC 3339 and keep the `%Y-%m-%d` part;
`"N/A"` when parsing fails.  (Every year `parseRfc3339` accepts lies in
`0..=9999`, where `%Y` is four zero-padded digits.) -/
def format_ymd (raw : String) : String :=
  match parseRfc3339 raw with
  | none => "N/A"
  | some t =>
      ⟨padDigits 4 t.year.toNat ++ '-' :: (padDigits 2 t.month ++ '-' :: padDigits 2 t.day)⟩

/-- Models `pretty_price`: parse the input as a decimal and render
`format!("${:.2}", dec)`; `"NaN"` when parsing fails. -/
def pretty_price (raw : String) : String :=
  match BigDecimal.fromStr raw with
  | none => "NaN"
  | some dec => "$" ++ dec.fmtPrec2

/-- Counterexample input: a timestamp whose offset (3661 s) is not a whole
number of minutes. -/
def dtOffsetCex : DateTimeFO := ⟨2026, 2, 9, 12, 0, 0, 0, 3661, by decide⟩

/-- Counterexample input: a timestamp with a five-digit year. -/
def dtYearCex : DateTimeFO := ⟨10000, 1, 1, 0, 0, 0, 0, 0, by decide⟩

/-! ## Theorems: `BigDecimal` arithmetic lemmas -/

namespace BigDecimal

theorem pow_shift (s m : Int) (h : s ≤ m) :
    ((10 : ℚ) ^ (m - s).toNat) * (10 : ℚ) ^ (-m) = (10 : ℚ) ^ (-s) := by
  rw [← zpow_natCast (10 : ℚ) (m - s).toNat, Int.toNat_of_nonneg (by omega),
    ← zpow_add₀ (by norm_num : (10 : ℚ) ≠ 0)]
  congr 1
  omega

theorem val_add (x y : BigDecimal) : (add x y).val = x.val + y.val := by
  unfold add val
  push_cast
  rw [add_mul, mul_assoc, mul_assoc,
    pow_shift x.scale (max x.scale y.scale) (le_max_left _ _),
    pow_shift y.scale (max x.scale y.scale) (le_max_right _ _)]

theorem val_sub (x y : BigDecimal) : (sub x y).val = x.val - y.val := by
  unfold sub val
  push_cast
  rw [sub_mul, mul_assoc, mul_assoc,
    pow_shift x.scale (max x.scale y.scale) (le_max_left _ _),
    pow_shift y.scale (max x.scale y.scale) (le_max_right _ _)]

theorem val_mulInt (q : Int) (x : BigDecimal) :
    (mulInt q x).val = (q : ℚ) * x.val := by
  unfold mulInt val
  push_cast
  ring

theorem val_lsum (L : List BigDecimal) : (lsum L).val = (L.map val).sum := by
  have aux : ∀ (L : List BigDecimal) (acc : BigDecimal),
      (L.foldl add acc).val = acc.val + (L.map val).sum := by
    intro L
    induction L with
    | nil => intro acc; simp
    | cons x xs ih =>
        intro acc
        simp only [List.foldl_cons, List.map_cons, List.sum_cons, ih, val_add]
        ring
  unfold lsum
  rw [aux]
  simp [fromInt, val]

/-- The value of a `BigDecimal`, rewritten at any common scale `m ≥ scale`. -/
theorem val_aligned (x : BigDecimal) (m : Int) (h : x.scale ≤ m) :
    x.val = ((x.intVal * 10 ^ (m - x.scale).toNat : Int) : ℚ) * (10 : ℚ) ^ (-m) := by
  unfold val
  push_cast
  rw [mul_assoc, pow_shift x.scale m h]

/-- Numeric equality of `BigDecimal`s (the code's `PartialEq`) is exactly
equality of the denoted rational values. -/
theorem beq_iff_val_eq (x y : BigDecimal) : beq x y ↔ x.val = y.val := by
  have hx := val_aligned x (max x.scale y.scale) (le_max_left _ _)
  have hy := val_aligned y (max x.scale y.scale) (le_max_right _ _)
  unfold beq
  constructor
  · intro h
    rw [hx, hy, h]
  · intro h
    rw [hx, hy] at h
    have h10 : ((10 : ℚ) ^ (-(max x.scale y.scale))) ≠ 0 := by
      apply zpow_ne_zero; norm_num
    have := mul_right_cancel₀ h10 h
    exact_mod_cast this

/-- Value of a summed map of line values. -/
theorem val_lsum_map {α : Type} (f : α → BigDecimal) (L : List α) :
    (lsum (L.map f)).val = (L.map (fun a => (f a).val)).sum := by
  rw [val_lsum, List.map_map]
  rfl

end BigDecimal

/-! ## Theorems: characterizations of the `build` functions -/

theorem addressBuilder_build_ok_iff (b : AddressBuilder) (a : Address) :
    b.build = .ok a ↔
      ∃ l1 c pc po, b.line1 = some l1 ∧ b.city = some c ∧
        b.province_code = some pc ∧ b.postal_code = some po ∧
        a = ⟨l1, b.line2.getD none, c, pc, po⟩ := by
  cases h1 : b.line1 <;> cases h2 : b.city <;> cases h3 : b.province_code <;>
    cases h4 : b.postal_code <;>
      simp [AddressBuilder.build, okOr, h1, h2, h3, h4, Bind.bind, Except.bind,
        Pure.pure, Except.pure, eq_comm]

theorem partyBuilder_build_ok_iff (b : PartyBuilder) (p : Party) :
    b.build = .ok p ↔
      ∃ n, b.name = some n ∧
        p = ⟨n, b.phone.getD none, b.email.getD none, b.address.getD none⟩ := by
  cases h1 : b.name <;>
    simp [PartyBuilder.build, okOr, h1, Bind.bind, Except.bind,
      Pure.pure, Except.pure, eq_comm]

theorem rootLineItemBuilder_build_ok_iff (b : RootCrate.LineItemBuilder)
    (item : RootCrate.LineItem) :
    b.build = .ok item ↔
      ∃ s t q p, b.sku = some s ∧ b.title = some t ∧ b.quantity = some q ∧
        b.price = some p ∧
        item = ⟨s, t, q, p, BigDecimal.mulInt q p⟩ := by
  cases hq : b.quantity <;> cases hp : b.price <;> cases hs : b.sku <;>
    cases ht : b.title <;>
      simp [RootCrate.LineItemBuilder.build, okOr, hq, hp, hs, ht, Bind.bind,
        Except.bind, Pure.pure, Except.pure, eq_comm]

theorem pdfLineItemBuilder_build_ok_iff (b : PdfCrate.LineItemBuilder)
    (item : PdfCrate.LineItem) :
    b.build = .ok item ↔
      ∃ s t q p, b.sku = some s ∧ b.title = some t ∧ b.quantity = some q ∧
        b.price = some p ∧ item = ⟨s, t, q, p⟩ := by
  cases hq : b.quantity <;> cases hp : b.price <;> cases hs : b.sku <;>
    cases ht : b.title <;>
      simp [PdfCrate.LineItemBuilder.build, okOr, hq, hp, hs, ht, Bind.bind,
        Except.bind, Pure.pure, Except.pure, eq_comm]

theorem rootInvoiceBuilder_build_ok_iff (b : RootCrate.InvoiceBuilder)
    (now_c now_d : DateTimeFO) (inv : RootCrate.Invoice) :
    b.build now_c now_d = .ok inv ↔
      ∃ id recv snd, b.id = some id ∧ b.receiver = some recv ∧ b.sender = some snd ∧
        inv = { id := id,
                created_datetime := b.created_datetime.getD now_c,
                net_due_datetime := b.net_due_datetime.getD now_d,
                receiver := recv, sender := snd,
                logo := b.logo.getD none,
                line_items := b.line_items.getD [],
                paid := b.paid.getD (BigDecimal.fromInt 0),
                total := BigDecimal.lsum ((b.line_items.getD []).map RootCrate.LineItem.total),
                due := BigDecimal.sub
                  (BigDecimal.lsum ((b.line_items.getD []).map RootCrate.LineItem.total))
                  (b.paid.getD (BigDecimal.fromInt 0)),
                acct_id := b.acct_id.getD none,
                purchase_order := b.purchase_order.getD none } := by
  cases h1 : b.id <;> cases h2 : b.receiver <;> cases h3 : b.sender <;>
    simp [RootCrate.InvoiceBuilder.build, okOr, h1, h2, h3, Bind.bind, Except.bind,
      Pure.pure, Except.pure, eq_comm]

theorem pdfInvoiceBuilder_build_ok_iff (b : PdfCrate.InvoiceBuilder)
    (now_c now_d : DateTimeFO) (inv : PdfCrate.Invoice) :
    b.build now_c now_d = .ok inv ↔
      ∃ id recv snd, b.id = some id ∧ b.receiver = some recv ∧ b.sender = some snd ∧
        inv = { id := id,
                created_datetime := b.created_datetime.getD now_c,
                net_due_datetime := b.net_due_datetime.getD now_d,
                receiver := recv, sender := snd,
                logo := b.logo.getD none,
                line_items := b.line_items.getD [],
                paid := b.paid.getD (BigDecimal.fromInt 0),
                acct_id := b.acct_id.getD none,
                purchase_order := b.purchase_order.getD none } := by
  cases h1 : b.id <;> cases h2 : b.receiver <;> cases h3 : b.sender <;>
    simp [PdfCrate.InvoiceBuilder.build, okOr, h1, h2, h3, Bind.bind, Except.bind,
      Pure.pure, Except.pure, eq_comm]

/-! ## Theorems: value of the derived totals -/

theorem pdfInvoice_val_total (inv : PdfCrate.Invoice) :
    inv.total.val = PdfCrate.lineItemsQP inv.line_items := by
  unfold PdfCrate.Invoice.total PdfCrate.lineItemsQP
  rw [BigDecimal.val_lsum_map]
  simp [BigDecimal.val_mulInt]

theorem pdfInvoice_val_net_due (inv : PdfCrate.Invoice) :
    inv.net_due.val = PdfCrate.lineItemsQP inv.line_items - inv.paid.val := by
  unfold PdfCrate.Invoice.net_due PdfCrate.lineItemsQP
  rw [BigDecimal.val_sub, BigDecimal.val_lsum_map]
  simp [BigDecimal.val_mulInt]

theorem rootInvoice_val_net_due (inv : RootCrate.Invoice) :
    inv.net_due.val = RootCrate.lineItemsQP inv.line_items - inv.paid.val := by
  unfold RootCrate.Invoice.net_due RootCrate.lineItemsQP
  rw [BigDecimal.val_sub, BigDecimal.val_lsum_map]
  simp [BigDecimal.val_mulInt]

/-- The value of a sum of stored line-item totals, under well-formedness. -/
theorem RootCrate.val_lsum_totals (L : List RootCrate.LineItem)
    (hwf : ∀ l ∈ L, l.WF) :
    (BigDecimal.lsum (L.map RootCrate.LineItem.total)).val = RootCrate.lineItemsQP L := by
  unfold RootCrate.lineItemsQP
  rw [BigDecimal.val_lsum_map]
  induction L with
  | nil => simp
  | cons x xs ih =>
      simp only [List.map_cons, List.sum_cons]
      rw [hwf x (by simp), ih (fun l hl => hwf l (by simp [hl]))]

/-! ## Theorems: `add_line` accumulation -/

theorem rootInvoiceBuilder_add_line_items (b : RootCrate.InvoiceBuilder)
    (i : RootCrate.LineItem) :
    (b.add_line i).line_items = some (b.line_items.getD [] ++ [i]) := by
  cases h : b.line_items <;> simp [RootCrate.InvoiceBuilder.add_line, h]

theorem pdfInvoiceBuilder_add_line_items (b : PdfCrate.InvoiceBuilder)
    (i : PdfCrate.LineItem) :
    (b.add_line i).line_items = some (b.line_items.getD [] ++ [i]) := by
  cases h : b.line_items <;> simp [PdfCrate.InvoiceBuilder.add_line, h]

theorem rootInvoiceBuilder_foldl_add_line_items (b : RootCrate.InvoiceBuilder)
    (items : List RootCrate.LineItem) :
    ((items.foldl RootCrate.InvoiceBuilder.add_line b).line_items).getD []
      = b.line_items.getD [] ++ items := by
  induction items generalizing b with
  | nil => simp
  | cons i is ih =>
      rw [List.foldl_cons, ih, rootInvoiceBuilder_add_line_items]
      simp

theorem pdfInvoiceBuilder_foldl_add_line_items (b : PdfCrate.InvoiceBuilder)
    (items : List PdfCrate.LineItem) :
    ((items.foldl PdfCrate.InvoiceBuilder.add_line b).line_items).getD []
      = b.line_items.getD [] ++ items := by
  induction items generalizing b with
  | nil => simp
  | cons i is ih =>
      rw [List.foldl_cons, ih, pdfInvoiceBuilder_add_line_items]
      simp

/-! ## Claim theorems -/

/-- C1: for every successfully built `Invoice` with line items
`[(q1,p1),...,(qn,pn)]` and paid amount `p`, the derived invoice total equals
the exact decimal sum `Σ qᵢ*pᵢ`, and the net amount due (`Invoice::net_due`
in both variants, and the stored `due` field in the stored-field variant)
equals that total minus `p`, in exact arbitrary-precision decimal arithmetic
(stated as equality of the denoted rational values).  The stored variant's
invoice total sums the frozen per-line `total` fields, so there the statement
assumes those fields are well formed (`total = quantity * price`), which
`LineItemBuilder::build` guarantees for every line item it produces. -/
theorem C1_invoice_totals_exact :
    (∀ (b : PdfCrate.InvoiceBuilder) (now_c now_d : DateTimeFO) (inv : PdfCrate.Invoice),
        b.build now_c now_d = .ok inv →
        inv.total.val = PdfCrate.lineItemsQP inv.line_items ∧
        inv.net_due.val = PdfCrate.lineItemsQP inv.line_items - inv.paid.val) ∧
    (∀ (b : RootCrate.InvoiceBuilder) (now_c now_d : DateTimeFO) (inv : RootCrate.Invoice),
        b.build now_c now_d = .ok inv →
        (∀ l ∈ inv.line_items, l.WF) →
        inv.total.val = RootCrate.lineItemsQP inv.line_items ∧
        inv.due.val = RootCrate.lineItemsQP inv.line_items - inv.paid.val ∧
        inv.net_due.val = RootCrate.lineItemsQP inv.line_items - inv.paid.val) := by
  constructor
  · intro b now_c now_d inv _
    exact ⟨pdfInvoice_val_total inv, pdfInvoice_val_net_due inv⟩
  · intro b now_c now_d inv h hwf
    rw [rootInvoiceBuilder_build_ok_iff] at h
    obtain ⟨id, recv, snd, hid, hrecv, hsnd, rfl⟩ := h
    simp only at hwf ⊢
    refine ⟨RootCrate.val_lsum_totals _ hwf, ?_, rootInvoice_val_net_due _⟩
    rw [BigDecimal.val_sub, RootCrate.val_lsum_totals _ hwf]

/-- C1 witness: a concrete accessor-variant invoice with two line items
(1 × 10.00 and 3 × 2.50) and paid 5.00: total 17.50, net due 12.50. -/
theorem C1_invoice_totals_exact_witness :
    (PdfCrate.InvoiceBuilder.mk (some "inv-1") none none (some ⟨"R", none, none, none⟩)
        (some ⟨"S", none, none, none⟩) none
        (some [⟨"A", "Item A", 1, ⟨1000, 2⟩⟩, ⟨"B", "Item B", 3, ⟨250, 2⟩⟩])
        (some ⟨500, 2⟩) none none).build dt0 dt0
      = .ok ⟨"inv-1", dt0, dt0, ⟨"R", none, none, none⟩, ⟨"S", none, none, none⟩, none,
          [⟨"A", "Item A", 1, ⟨1000, 2⟩⟩, ⟨"B", "Item B", 3, ⟨250, 2⟩⟩], ⟨500, 2⟩,
          none, none⟩ ∧
    (PdfCrate.Invoice.mk "inv-1" dt0 dt0 ⟨"R", none, none, none⟩ ⟨"S", none, none, none⟩ none
          [⟨"A", "Item A", 1, ⟨1000, 2⟩⟩, ⟨"B", "Item B", 3, ⟨250, 2⟩⟩] ⟨500, 2⟩
          none none).total.val = (35 : ℚ) / 2 ∧
    (PdfCrate.Invoice.mk "inv-1" dt0 dt0 ⟨"R", none, none, none⟩ ⟨"S", none, none, none⟩ none
          [⟨"A", "Item A", 1, ⟨1000, 2⟩⟩, ⟨"B", "Item B", 3, ⟨250, 2⟩⟩] ⟨500, 2⟩
          none none).net_due.val = (25 : ℚ) / 2 := by
  have h := C1_invoice_totals_exact.1
    (PdfCrate.InvoiceBuilder.mk (some "inv-1") none none (some ⟨"R", none, none, none⟩)
        (some ⟨"S", none, none, none⟩) none
        (some [⟨"A", "Item A", 1, ⟨1000, 2⟩⟩, ⟨"B", "Item B", 3, ⟨250, 2⟩⟩])
        (some ⟨500, 2⟩) none none) dt0 dt0
    ⟨"inv-1", dt0, dt0, ⟨"R", none, none, none⟩, ⟨"S", none, none, none⟩, none,
      [⟨"A", "Item A", 1, ⟨1000, 2⟩⟩, ⟨"B", "Item B", 3, ⟨250, 2⟩⟩], ⟨500, 2⟩,
      none, none⟩ rfl
  refine ⟨rfl, ?_, ?_⟩
  · rw [h.1]
    norm_num [PdfCrate.lineItemsQP, BigDecimal.val, zpow_neg]
  · rw [h.2]
    norm_num [PdfCrate.lineItemsQP, BigDecimal.val, zpow_neg]

/-- C2: building an `Invoice` with a required field (`id`, `receiver`,
`sender`) unset fails with `UninitializedField` naming that field
(`id` is checked first, then `receiver`, then `sender`, in both variants);
building with all three required fields set and every optional field unset
succeeds with the defaults applied: empty `line_items`, `paid = 0`,
`logo`/`acct_id`/`purchase_order` = `None`, and `created_datetime` /
`net_due_datetime` set to the respective `Local::now()` captures (the
explicit `now_c`/`now_d` arguments of the embedded `build`). -/
theorem C2_required_fields_and_defaults :
    (∀ (b : RootCrate.InvoiceBuilder) (now_c now_d : DateTimeFO),
        b.id = none → b.build now_c now_d = .error (.UninitializedField "id")) ∧
    (∀ (b : RootCrate.InvoiceBuilder) (now_c now_d : DateTimeFO),
        b.id ≠ none → b.receiver = none →
        b.build now_c now_d = .error (.UninitializedField "receiver")) ∧
    (∀ (b : RootCrate.InvoiceBuilder) (now_c now_d : DateTimeFO),
        b.id ≠ none → b.receiver ≠ none → b.sender = none →
        b.build now_c now_d = .error (.UninitializedField "sender")) ∧
    (∀ (id : String) (recv snd : Party) (now_c now_d : DateTimeFO),
        (RootCrate.InvoiceBuilder.mk (some id) none none (some recv) (some snd)
            none none none none none).build now_c now_d
          = .ok ⟨id, now_c, now_d, recv, snd, none, [], ⟨0, 0⟩, ⟨0, 0⟩, ⟨0, 0⟩, none, none⟩) ∧
    (∀ (b : PdfCrate.InvoiceBuilder) (now_c now_d : DateTimeFO),
        b.id = none → b.build now_c now_d = .error (.UninitializedField "id")) ∧
    (∀ (b : PdfCrate.InvoiceBuilder) (now_c now_d : DateTimeFO),
        b.id ≠ none → b.receiver = none →
        b.build now_c now_d = .error (.UninitializedField "receiver")) ∧
    (∀ (b : PdfCrate.InvoiceBuilder) (now_c now_d : DateTimeFO),
        b.id ≠ none → b.receiver ≠ none → b.sender = none →
        b.build now_c now_d = .error (.UninitializedField "sender")) ∧
    (∀ (id : String) (recv snd : Party) (now_c now_d : DateTimeFO),
        (PdfCrate.InvoiceBuilder.mk (some id) none none (some recv) (some snd)
            none none none none none).build now_c now_d
          = .ok ⟨id, now_c, now_d, recv, snd, none, [], ⟨0, 0⟩, none, none⟩) := by
  refine ⟨?_, ?_, ?_, ?_, ?_, ?_, ?_, ?_⟩
  · intro b now_c now_d h
    simp [RootCrate.InvoiceBuilder.build, okOr, h, Bind.bind, Except.bind]
  · intro b now_c now_d hid h
    obtain ⟨id, hid⟩ := Option.ne_none_iff_exists'.mp hid
    simp [RootCrate.InvoiceBuilder.build, okOr, h, hid, Bind.bind, Except.bind]
  · intro b now_c now_d hid hrecv h
    obtain ⟨id, hid⟩ := Option.ne_none_iff_exists'.mp hid
    obtain ⟨recv, hrecv⟩ := Option.ne_none_iff_exists'.mp hrecv
    simp [RootCrate.InvoiceBuilder.build, okOr, h, hid, hrecv, Bind.bind, Except.bind]
  · intro id recv snd now_c now_d
    rfl
  · intro b now_c now_d h
    simp [PdfCrate.InvoiceBuilder.build, okOr, h, Bind.bind, Except.bind]
  · intro b now_c now_d hid h
    obtain ⟨id, hid⟩ := Option.ne_none_iff_exists'.mp hid
    simp [PdfCrate.InvoiceBuilder.build, okOr, h, hid, Bind.bind, Except.bind]
  · intro b now_c now_d hid hrecv h
    obtain ⟨id, hid⟩ := Option.ne_none_iff_exists'.mp hid
    obtain ⟨recv, hrecv⟩ := Option.ne_none_iff_exists'.mp hrecv
    simp [PdfCrate.InvoiceBuilder.build, okOr, h, hid, hrecv, Bind.bind, Except.bind]
  · intro id recv snd now_c now_d
    rfl

/-- C2 witness: concrete builders with exactly one required field unset fail
naming that field, and a minimal all-defaults build succeeds. -/
theorem C2_required_fields_and_defaults_witness :
    (RootCrate.InvoiceBuilder.mk none none none (some ⟨"R", none, none, none⟩)
        (some ⟨"S", none, none, none⟩) none none none none none).build dt0 dt0
      = .error (.UninitializedField "id") ∧
    (RootCrate.InvoiceBuilder.mk (some "1") none none none
        (some ⟨"S", none, none, none⟩) none none none none none).build dt0 dt0
      = .error (.UninitializedField "receiver") ∧
    (RootCrate.InvoiceBuilder.mk (some "1") none none (some ⟨"R", none, none, none⟩)
        none none none none none none).build dt0 dt0
      = .error (.UninitializedField "sender") ∧
    (PdfCrate.InvoiceBuilder.mk (some "1") none none (some ⟨"R", none, none, none⟩)
        (some ⟨"S", none, none, none⟩) none none none none none).build dt0 dt0
      = .ok ⟨"1", dt0, dt0, ⟨"R", none, none, none⟩, ⟨"S", none, none, none⟩,
          none, [], ⟨0, 0⟩, none, none⟩ := by
  refine ⟨?_, ?_, ?_, ?_⟩
  · exact C2_required_fields_and_defaults.1 _ dt0 dt0 rfl
  · exact C2_required_fields_and_defaults.2.1 _ dt0 dt0 (by simp) rfl
  · exact C2_required_fields_and_defaults.2.2.1 _ dt0 dt0 (by simp) (by simp) rfl
  · exact C2_required_fields_and_defaults.2.2.2.2.2.2.2 "1" ⟨"R", none, none, none⟩
      ⟨"S", none, none, none⟩ dt0 dt0

/-- C3 (amended): a terminal `build` on a builder state with missing required
fields reports exactly one of them — the first missing field in the builder's
check order.  The check order is the declared field order for the
`derive_builder`-generated builders (`Address`, `Party`, the accessor-variant
`LineItem` and both `Invoice` builders, whose hand-written `build` also checks
`id`, `receiver`, `sender` in declared order), but the stored-variant
hand-written `LineItemBuilder::build` checks `quantity`, `price`, `sku`,
`title` — not the declared order `sku`, `title`, `quantity`, `price`. -/
theorem C3_first_missing_field_reported :
    (∀ (b : AddressBuilder) (f : String), b.missingDeclared.head? = some f →
        b.build = .error (.UninitializedField f)) ∧
    (∀ (b : PartyBuilder) (f : String), b.missingDeclared.head? = some f →
        b.build = .error (.UninitializedField f)) ∧
    (∀ (b : RootCrate.LineItemBuilder) (f : String), b.missingChecked.head? = some f →
        b.build = .error (.UninitializedField f)) ∧
    (∀ (b : PdfCrate.LineItemBuilder) (f : String), b.missingDeclared.head? = some f →
        b.build = .error (.UninitializedField f)) ∧
    (∀ (b : RootCrate.InvoiceBuilder) (f : String) (now_c now_d : DateTimeFO),
        b.missingDeclared.head? = some f →
        b.build now_c now_d = .error (.UninitializedField f)) ∧
    (∀ (b : PdfCrate.InvoiceBuilder) (f : String) (now_c now_d : DateTimeFO),
        b.missingDeclared.head? = some f →
        b.build now_c now_d = .error (.UninitializedField f)) := by
  refine ⟨?_, ?_, ?_, ?_, ?_, ?_⟩
  · intro b f h
    cases h1 : b.line1 <;> cases h2 : b.city <;> cases h3 : b.province_code <;>
      cases h4 : b.postal_code <;>
        simp_all [AddressBuilder.missingDeclared, AddressBuilder.build, okOr,
          Bind.bind, Except.bind]
  · intro b f h
    cases h1 : b.name <;>
      simp_all [PartyBuilder.missingDeclared, PartyBuilder.build, okOr,
        Bind.bind, Except.bind]
  · intro b f h
    cases h1 : b.quantity <;> cases h2 : b.price <;> cases h3 : b.sku <;>
      cases h4 : b.title <;>
        simp_all [RootCrate.LineItemBuilder.missingChecked, RootCrate.LineItemBuilder.build,
          okOr, Bind.bind, Except.bind]
  · intro b f h
    cases h1 : b.sku <;> cases h2 : b.title <;> cases h3 : b.quantity <;>
      cases h4 : b.price <;>
        simp_all [PdfCrate.LineItemBuilder.missingDeclared, PdfCrate.LineItemBuilder.build,
          okOr, Bind.bind, Except.bind]
  · intro b f now_c now_d h
    cases h1 : b.id <;> cases h2 : b.receiver <;> cases h3 : b.sender <;>
      simp_all [RootCrate.InvoiceBuilder.missingDeclared, RootCrate.InvoiceBuilder.build,
        okOr, Bind.bind, Except.bind]
  · intro b f now_c now_d h
    cases h1 : b.id <;> cases h2 : b.receiver <;> cases h3 : b.sender <;>
      simp_all [PdfCrate.InvoiceBuilder.missingDeclared, PdfCrate.InvoiceBuilder.build,
        okOr, Bind.bind, Except.bind]

/-- C3 counterexample: the stored-variant `LineItemBuilder` with every field
unset (so at least two required fields are missing) reports `quantity`, but
the first missing field in declared order (`sku`, `title`, `quantity`,
`price`) is `sku`. -/
theorem C3_counterexample_declared_order :
    (RootCrate.LineItemBuilder.mk none none none none).build
      = .error (.UninitializedField "quantity") ∧
    (RootCrate.LineItemBuilder.mk none none none none).missingDeclared.head? = some "sku" ∧
    "quantity" ≠ "sku" := by
  exact ⟨rfl, rfl, by decide⟩

/-- C3 witness: the all-unset builders report the first missing field of
their check order. -/
theorem C3_first_missing_field_reported_witness :
    (AddressBuilder.mk none none none none none).build
      = .error (.UninitializedField "line1") ∧
    (PartyBuilder.mk none none none none).build
      = .error (.UninitializedField "name") ∧
    (PdfCrate.LineItemBuilder.mk none none none none).build
      = .error (.UninitializedField "sku") ∧
    (RootCrate.InvoiceBuilder.mk none none none none none none none none none none).build
        dt0 dt0
      = .error (.UninitializedField "id") := by
  refine ⟨?_, ?_, ?_, ?_⟩
  · exact C3_first_missing_field_reported.1 _ "line1" rfl
  · exact C3_first_missing_field_reported.2.1 _ "name" rfl
  · exact C3_first_missing_field_reported.2.2.2.1 _ "sku" rfl
  · exact C3_first_missing_field_reported.2.2.2.2.1 _ "id" dt0 dt0 rfl

/-- C6 (part of the proof of functional equivalence of the two variants):
building the translated builder state in the accessor variant gives exactly
the translated result of the stored-variant build, errors included. -/
theorem PdfCrate.build_ofRoot (b : RootCrate.InvoiceBuilder) (now_c now_d : DateTimeFO) :
    (PdfCrate.InvoiceBuilder.ofRoot b).build now_c now_d
      = (b.build now_c now_d).map PdfCrate.Invoice.ofRoot := by
  have hitems : ∀ (o : Option (List RootCrate.LineItem)),
      (o.map (List.map PdfCrate.LineItem.ofRoot)).getD []
        = (o.getD []).map PdfCrate.LineItem.ofRoot := by
    intro o; cases o <;> simp
  cases h1 : b.id <;> cases h2 : b.receiver <;> cases h3 : b.sender <;>
    simp [PdfCrate.InvoiceBuilder.build, RootCrate.InvoiceBuilder.build,
      PdfCrate.InvoiceBuilder.ofRoot, PdfCrate.Invoice.ofRoot, okOr, h1, h2, h3,
      Bind.bind, Except.bind, Except.map, Pure.pure, Except.pure, hitems]

/-- C6: the two design variants are functionally equivalent.  For the same
field inputs (the stored-variant builder state translated field-by-field to
the accessor variant), the accessor-variant `build` yields exactly the
translated result of the stored-variant `build` (same error on failure, and
on success the same invoice up to forgetting the stored `total`/`due`); and
for every built stored-variant invoice with well-formed line items, the
stored `total` and `due` fields denote the same values as the accessor
variant's on-demand `total()` and `net_due()`, and the stored `due` equals
the value recomputed by the stored variant's own `net_due()`. -/
theorem C6_variant_equivalence :
    (∀ (b : RootCrate.InvoiceBuilder) (now_c now_d : DateTimeFO),
        (PdfCrate.InvoiceBuilder.ofRoot b).build now_c now_d
          = (b.build now_c now_d).map PdfCrate.Invoice.ofRoot) ∧
    (∀ (b : RootCrate.InvoiceBuilder) (now_c now_d : DateTimeFO) (inv : RootCrate.Invoice),
        b.build now_c now_d = .ok inv →
        (∀ l ∈ inv.line_items, l.WF) →
        inv.total.val = (PdfCrate.Invoice.ofRoot inv).total.val ∧
        inv.due.val = (PdfCrate.Invoice.ofRoot inv).net_due.val ∧
        inv.due.val = inv.net_due.val) := by
  constructor
  · exact PdfCrate.build_ofRoot
  · intro b now_c now_d inv h hwf
    have hqp : PdfCrate.lineItemsQP (inv.line_items.map PdfCrate.LineItem.ofRoot)
        = RootCrate.lineItemsQP inv.line_items := by
      unfold PdfCrate.lineItemsQP RootCrate.lineItemsQP
      rw [List.map_map]
      rfl
    rw [rootInvoiceBuilder_build_ok_iff] at h
    obtain ⟨id, recv, snd, hid, hrecv, hsnd, rfl⟩ := h
    simp only at hwf ⊢
    have htot := RootCrate.val_lsum_totals _ hwf
    refine ⟨?_, ?_, ?_⟩
    · rw [htot, pdfInvoice_val_total]
      simp only [PdfCrate.Invoice.ofRoot]
      rw [hqp]
    · rw [BigDecimal.val_sub, htot, pdfInvoice_val_net_due]
      simp only [PdfCrate.Invoice.ofRoot]
      rw [hqp]
    · rw [BigDecimal.val_sub, htot, rootInvoice_val_net_due]

/-- C6 witness: the equivalence at a concrete builder state with one line
item. -/
theorem C6_variant_equivalence_witness :
    (PdfCrate.InvoiceBuilder.ofRoot
        (RootCrate.InvoiceBuilder.mk (some "1") none none (some ⟨"R", none, none, none⟩)
          (some ⟨"S", none, none, none⟩) none
          (some [⟨"A", "Item A", 2, ⟨950, 2⟩, ⟨1900, 2⟩⟩]) none none none)).build dt0 dt0
      = ((RootCrate.InvoiceBuilder.mk (some "1") none none (some ⟨"R", none, none, none⟩)
          (some ⟨"S", none, none, none⟩) none
          (some [⟨"A", "Item A", 2, ⟨950, 2⟩, ⟨1900, 2⟩⟩]) none none none).build dt0 dt0).map
        PdfCrate.Invoice.ofRoot ∧
    (RootCrate.Invoice.mk "1" dt0 dt0 ⟨"R", none, none, none⟩ ⟨"S", none, none, none⟩ none
        [⟨"A", "Item A", 2, ⟨950, 2⟩, ⟨1900, 2⟩⟩] ⟨0, 0⟩ ⟨1900, 2⟩ ⟨1900, 2⟩
        none none).due.val
      = (RootCrate.Invoice.mk "1" dt0 dt0 ⟨"R", none, none, none⟩ ⟨"S", none, none, none⟩ none
        [⟨"A", "Item A", 2, ⟨950, 2⟩, ⟨1900, 2⟩⟩] ⟨0, 0⟩ ⟨1900, 2⟩ ⟨1900, 2⟩
        none none).net_due.val := by
  constructor
  · exact C6_variant_equivalence.1
      (RootCrate.InvoiceBuilder.mk (some "1") none none (some ⟨"R", none, none, none⟩)
        (some ⟨"S", none, none, none⟩) none
        (some [⟨"A", "Item A", 2, ⟨950, 2⟩, ⟨1900, 2⟩⟩]) none none none) dt0 dt0
  · have h := C6_variant_equivalence.2
      (RootCrate.InvoiceBuilder.mk (some "1") none none (some ⟨"R", none, none, none⟩)
        (some ⟨"S", none, none, none⟩) none
        (some [⟨"A", "Item A", 2, ⟨950, 2⟩, ⟨1900, 2⟩⟩]) none none none) dt0 dt0
      ⟨"1", dt0, dt0, ⟨"R", none, none, none⟩, ⟨"S", none, none, none⟩, none,
        [⟨"A", "Item A", 2, ⟨950, 2⟩, ⟨1900, 2⟩⟩], ⟨0, 0⟩, ⟨1900, 2⟩, ⟨1900, 2⟩,
        none, none⟩ rfl ?_
    · exact h.2.2
    · intro l hl
      simp only [List.mem_singleton] at hl
      subst hl
      norm_num [RootCrate.LineItem.WF, BigDecimal.val, zpow_neg]

/-- C8: `InvoiceBuilder::add_line` is additive and order-preserving in both
variants: a sequence of `add_line` calls appends the items, in call order,
after any previously added items, and `build` passes the accumulated list
through unchanged — so the built invoice's `line_items` is exactly the
previously accumulated list followed by the added items, never reordered,
dropped or duplicated. -/
theorem C8_add_line_order_preserving :
    (∀ (b : RootCrate.InvoiceBuilder) (items : List RootCrate.LineItem),
        ((items.foldl RootCrate.InvoiceBuilder.add_line b).line_items).getD []
          = b.line_items.getD [] ++ items) ∧
    (∀ (b : RootCrate.InvoiceBuilder) (now_c now_d : DateTimeFO) (inv : RootCrate.Invoice),
        b.build now_c now_d = .ok inv → inv.line_items = b.line_items.getD []) ∧
    (∀ (b : RootCrate.InvoiceBuilder) (items : List RootCrate.LineItem)
        (now_c now_d : DateTimeFO) (inv : RootCrate.Invoice),
        (items.foldl RootCrate.InvoiceBuilder.add_line b).build now_c now_d = .ok inv →
        inv.line_items = b.line_items.getD [] ++ items) ∧
    (∀ (b : PdfCrate.InvoiceBuilder) (items : List PdfCrate.LineItem),
        ((items.foldl PdfCrate.InvoiceBuilder.add_line b).line_items).getD []
          = b.line_items.getD [] ++ items) ∧
    (∀ (b : PdfCrate.InvoiceBuilder) (now_c now_d : DateTimeFO) (inv : PdfCrate.Invoice),
        b.build now_c now_d = .ok inv → inv.line_items = b.line_items.getD []) ∧
    (∀ (b : PdfCrate.InvoiceBuilder) (items : List PdfCrate.LineItem)
        (now_c now_d : DateTimeFO) (inv : PdfCrate.Invoice),
        (items.foldl PdfCrate.InvoiceBuilder.add_line b).build now_c now_d = .ok inv →
        inv.line_items = b.line_items.getD [] ++ items) := by
  have hroot : ∀ (b : RootCrate.InvoiceBuilder) (now_c now_d : DateTimeFO)
      (inv : RootCrate.Invoice),
      b.build now_c now_d = .ok inv → inv.line_items = b.line_items.getD [] := by
    intro b now_c now_d inv h
    rw [rootInvoiceBuilder_build_ok_iff] at h
    obtain ⟨id, recv, snd, _, _, _, rfl⟩ := h
    rfl
  have hpdf : ∀ (b : PdfCrate.InvoiceBuilder) (now_c now_d : DateTimeFO)
      (inv : PdfCrate.Invoice),
      b.build now_c now_d = .ok inv → inv.line_items = b.line_items.getD [] := by
    intro b now_c now_d inv h
    rw [pdfInvoiceBuilder_build_ok_iff] at h
    obtain ⟨id, recv, snd, _, _, _, rfl⟩ := h
    rfl
  refine ⟨rootInvoiceBuilder_foldl_add_line_items, hroot, ?_,
    pdfInvoiceBuilder_foldl_add_line_items, hpdf, ?_⟩
  · intro b items now_c now_d inv h
    rw [hroot _ _ _ _ h, rootInvoiceBuilder_foldl_add_line_items]
  · intro b items now_c now_d inv h
    rw [hpdf _ _ _ _ h, pdfInvoiceBuilder_foldl_add_line_items]

/-- C8 witness: two `add_line` calls on a fresh accessor-variant builder give
exactly those two items in call order in the built invoice. -/
theorem C8_add_line_order_preserving_witness :
    ([(⟨"A", "Item A", 1, ⟨1000, 2⟩⟩ : PdfCrate.LineItem),
      ⟨"B", "Item B", 3, ⟨250, 2⟩⟩].foldl PdfCrate.InvoiceBuilder.add_line
        (PdfCrate.InvoiceBuilder.mk (some "1") none none (some ⟨"R", none, none, none⟩)
          (some ⟨"S", none, none, none⟩) none none none none none)).build dt0 dt0
      = .ok ⟨"1", dt0, dt0, ⟨"R", none, none, none⟩, ⟨"S", none, none, none⟩, none,
          [⟨"A", "Item A", 1, ⟨1000, 2⟩⟩, ⟨"B", "Item B", 3, ⟨250, 2⟩⟩], ⟨0, 0⟩,
          none, none⟩ ∧
    (PdfCrate.Invoice.mk "1" dt0 dt0 ⟨"R", none, none, none⟩ ⟨"S", none, none, none⟩ none
        [⟨"A", "Item A", 1, ⟨1000, 2⟩⟩, ⟨"B", "Item B", 3, ⟨250, 2⟩⟩] ⟨0, 0⟩
        none none).line_items
      = [] ++ [⟨"A", "Item A", 1, ⟨1000, 2⟩⟩, ⟨"B", "Item B", 3, ⟨250, 2⟩⟩] := by
  refine ⟨rfl, ?_⟩
  exact C8_add_line_order_preserving.2.2.2.2.2
    (PdfCrate.InvoiceBuilder.mk (some "1") none none (some ⟨"R", none, none, none⟩)
      (some ⟨"S", none, none, none⟩) none none none none none)
    [⟨"A", "Item A", 1, ⟨1000, 2⟩⟩, ⟨"B", "Item B", 3, ⟨250, 2⟩⟩] dt0 dt0
    ⟨"1", dt0, dt0, ⟨"R", none, none, none⟩, ⟨"S", none, none, none⟩, none,
      [⟨"A", "Item A", 1, ⟨1000, 2⟩⟩, ⟨"B", "Item B", 3, ⟨250, 2⟩⟩], ⟨0, 0⟩,
      none, none⟩ rfl

/-- C9: error context accumulates innermost-first and is displayed reversed:
an `Error` whose initial context is the single cause entry `c0` (as every
`From` impl in `src/src/error.rs` creates it), after `add_context` calls
`c1, ..., cn`, displays as `cn -> ... -> c1 -> c0`; an `Error` with an empty
context list displays as "no context". -/
theorem C9_context_display_reversed :
    (∀ (k : RootCrate.ErrorKind) (c0 : String) (cs : List String),
        (cs.foldl RootCrate.Error.add_context ⟨k, [c0]⟩).display
          = String.intercalate " -> " (cs.reverse ++ [c0])) ∧
    (∀ k : RootCrate.ErrorKind, (RootCrate.Error.mk k []).display = "no context") := by
  have hctx : ∀ (cs : List String) (e : RootCrate.Error),
      (cs.foldl RootCrate.Error.add_context e).context = e.context ++ cs := by
    intro cs
    induction cs with
    | nil => intro e; simp
    | cons c cs ih =>
        intro e
        rw [List.foldl_cons, ih]
        simp [RootCrate.Error.add_context]
  constructor
  · intro k c0 cs
    unfold RootCrate.Error.display
    rw [hctx]
    simp
  · intro k
    rfl

/-! ## Theorems: digit strings -/

theorem charVal_dChar {d : Nat} (h : d < 10) : charVal (dChar d) = d := by
  interval_cases d <;> decide

theorem isDigitChar_dChar {d : Nat} (h : d < 10) : isDigitChar (dChar d) = true := by
  interval_cases d <;> decide

theorem readDigit_dChar {d : Nat} (h : d < 10) : readDigit (dChar d) = some d := by
  simp [readDigit, isDigitChar_dChar h, charVal_dChar h]

/-- A digit character is none of the structural characters of the codecs. -/
theorem digit_ne_special {c : Char} (h : isDigitChar c = true) :
    c ≠ 'e' ∧ c ≠ 'E' ∧ c ≠ '.' ∧ c ≠ '-' ∧ c ≠ '+' := by
  refine ⟨?_, ?_, ?_, ?_, ?_⟩ <;> rintro rfl <;> simp [isDigitChar] at h

theorem readNatAux_append (a : Nat) (l1 l2 : List Char) :
    readNatAux a (l1 ++ l2) = readNatAux (readNatAux a l1) l2 := by
  simp [readNatAux, List.foldl_append]

theorem readNatAux_cons (a : Nat) (c : Char) (l : List Char) :
    readNatAux a (c :: l) = readNatAux (a * 10 + charVal c) l := rfl

theorem padDigits_length (w n : Nat) : (padDigits w n).length = w := by
  induction w with
  | zero => rfl
  | succ w ih => simp [padDigits, ih]

theorem padDigits_all_digits (w n : Nat) : ∀ c ∈ padDigits w n, isDigitChar c = true := by
  induction w with
  | zero => simp [padDigits]
  | succ w ih =>
      intro c hc
      rcases List.mem_cons.mp hc with rfl | hc
      · exact isDigitChar_dChar (Nat.mod_lt _ (by norm_num))
      · exact ih c hc

theorem readNatAux_padDigits (w : Nat) : ∀ (a n : Nat),
    readNatAux a (padDigits w n) = a * 10 ^ w + n % 10 ^ w := by
  induction w with
  | zero => intro a n; simp [padDigits, readNatAux, Nat.mod_one]
  | succ w ih =>
      intro a n
      rw [padDigits, readNatAux_cons, charVal_dChar (Nat.mod_lt _ (by norm_num)), ih,
        pow_succ, Nat.mod_mul]
      ring

theorem readNatAux_replicate_zero (k : Nat) : ∀ (a : Nat),
    readNatAux a (List.replicate k '0') = a * 10 ^ k := by
  induction k with
  | zero => intro a; simp [readNatAux]
  | succ k ih =>
      intro a
      rw [List.replicate_succ, readNatAux_cons, ih]
      have : charVal '0' = 0 := by decide
      rw [this, pow_succ]
      ring

theorem natDigitsRev_eq_digits : ∀ (fuel n : Nat), n < fuel →
    natDigitsRev fuel n = Nat.digits 10 n := by
  intro fuel
  induction fuel with
  | zero => intro n h; omega
  | succ fuel ih =>
      intro n h
      unfold natDigitsRev
      by_cases h0 : n = 0
      · simp [h0]
      · rw [if_neg h0, Nat.digits_def' (by norm_num : 1 < 10) (by omega), ih]
        omega

theorem natStr_ne_nil (n : Nat) : natStr n ≠ [] := by
  unfold natStr
  split
  · simp
  · rw [natDigitsRev_eq_digits _ _ (by omega)]
    simpa using Nat.digits_ne_nil_iff_ne_zero.mpr (by assumption)

theorem natStr_all_digits (n : Nat) : ∀ c ∈ natStr n, isDigitChar c = true := by
  unfold natStr
  split
  · intro c hc
    simp at hc
    subst hc
    decide
  · rw [natDigitsRev_eq_digits _ _ (by omega)]
    intro c hc
    rw [List.mem_reverse, List.mem_map] at hc
    obtain ⟨d, hd, rfl⟩ := hc
    exact isDigitChar_dChar (Nat.digits_lt_base (by norm_num) hd)

theorem readNatAux_digits_reversed (L : List Nat) (hL : ∀ d ∈ L, d < 10) : ∀ (a : Nat),
    readNatAux a ((L.map dChar).reverse) = a * 10 ^ L.length + Nat.ofDigits 10 L := by
  induction L with
  | nil => intro a; simp [readNatAux, Nat.ofDigits]
  | cons d L ih =>
      intro a
      rw [List.map_cons, List.reverse_cons, readNatAux_append,
        ih (fun e he => hL e (by simp [he])),
        readNatAux_cons, charVal_dChar (hL d (by simp))]
      have hofd : Nat.ofDigits 10 (d :: L) = d + 10 * Nat.ofDigits 10 L := by
        exact_mod_cast Nat.ofDigits_cons
      simp only [readNatAux, List.foldl_nil, List.length_cons, hofd, pow_succ]
      ring

theorem readNat_natStr (n : Nat) : readNat (natStr n) = n := by
  unfold readNat natStr
  split
  · rename_i h
    subst h
    decide
  · rw [natDigitsRev_eq_digits _ _ (by omega)]
    rw [readNatAux_digits_reversed _ (fun d hd => Nat.digits_lt_base (by norm_num) hd)]
    simp [Nat.ofDigits_digits]

/-! ## Theorems: decimal parsing shapes -/

theorem splitOnExp_no_exp {cs : List Char} (h : ∀ c ∈ cs, c ≠ 'e' ∧ c ≠ 'E') :
    splitOnExp cs = (cs, none) := by
  induction cs with
  | nil => rfl
  | cons c rest ih =>
      have hc := h c (by simp)
      simp [splitOnExp, hc.1, hc.2, ih (fun e he => h e (by simp [he]))]

theorem splitOnDot_no_dot {cs : List Char} (h : ∀ c ∈ cs, c ≠ '.') :
    splitOnDot cs = (cs, none) := by
  induction cs with
  | nil => rfl
  | cons c rest ih =>
      simp [splitOnDot, h c (by simp), ih (fun e he => h e (by simp [he]))]

theorem splitOnDot_append {l1 l2 : List Char} (h : ∀ c ∈ l1, c ≠ '.') :
    splitOnDot (l1 ++ '.' :: l2) = (l1, some l2) := by
  induction l1 with
  | nil => simp [splitOnDot]
  | cons c rest ih =>
      simp [splitOnDot, h c (by simp), ih (fun e he => h e (by simp [he]))]

theorem parseNatDigits_eq {cs : List Char} (hne : cs ≠ [])
    (hd : ∀ c ∈ cs, isDigitChar c = true) :
    parseNatDigits cs = some (readNat cs) := by
  unfold parseNatDigits
  rw [if_pos ⟨hne, List.all_eq_true.mpr hd⟩]

theorem parseBigInt_digits {cs : List Char} (hne : cs ≠ [])
    (hd : ∀ c ∈ cs, isDigitChar c = true) :
    parseBigInt cs = some ((readNat cs : Int)) := by
  match cs, hne with
  | c :: rest, _ =>
      have hc := digit_ne_special (hd c (by simp))
      simp only [parseBigInt, if_neg hc.2.2.2.2, if_neg hc.2.2.2.1]
      rw [parseNatDigits_eq (by simp) hd]
      rfl

theorem parseBigInt_neg_digits {cs : List Char} (hne : cs ≠ [])
    (hd : ∀ c ∈ cs, isDigitChar c = true) :
    parseBigInt ('-' :: cs) = some (-(readNat cs : Int)) := by
  simp only [parseBigInt, if_neg (by decide : ¬('-' : Char) = '+'), if_pos rfl]
  rw [parseNatDigits_eq hne hd]
  rfl

/-- Parsing an unsigned plain decimal digit string with a fractional part. -/
theorem fromStr_digits_dot {d1 d2 : List Char} (h1 : d1 ≠ [])
    (hd1 : ∀ c ∈ d1, isDigitChar c = true) (h2 : d2 ≠ [])
    (hd2 : ∀ c ∈ d2, isDigitChar c = true) :
    BigDecimal.fromStr ⟨d1 ++ '.' :: d2⟩
      = some ⟨(readNat (d1 ++ d2) : Int), (d2.length : Int)⟩ := by
  have hall : ∀ c ∈ d1 ++ '.' :: d2, c ≠ 'e' ∧ c ≠ 'E' := by
    intro c hc
    rcases List.mem_append.mp hc with hc | hc
    · exact ⟨(digit_ne_special (hd1 c hc)).1, (digit_ne_special (hd1 c hc)).2.1⟩
    · rcases List.mem_cons.mp hc with rfl | hc
      · exact ⟨by decide, by decide⟩
      · exact ⟨(digit_ne_special (hd2 c hc)).1, (digit_ne_special (hd2 c hc)).2.1⟩
  unfold BigDecimal.fromStr
  rw [show (String.mk (d1 ++ '.' :: d2)).data = d1 ++ '.' :: d2 from rfl]
  rw [splitOnExp_no_exp hall]
  simp only
  rw [if_neg (by simp [h1])]
  rw [splitOnDot_append (fun c hc => (digit_ne_special (hd1 c hc)).2.2.1)]
  simp only
  rw [parseBigInt_digits (by simp [h1]) (by
    intro c hc
    rcases List.mem_append.mp hc with hc | hc
    · exact hd1 c hc
    · exact hd2 c hc)]
  simp

/-- Parsing an unsigned plain decimal digit string without a fractional
part. -/
theorem fromStr_digits {d1 : List Char} (h1 : d1 ≠ [])
    (hd1 : ∀ c ∈ d1, isDigitChar c = true) :
    BigDecimal.fromStr ⟨d1⟩ = some ⟨(readNat d1 : Int), 0⟩ := by
  unfold BigDecimal.fromStr
  rw [show (String.mk d1).data = d1 from rfl]
  rw [splitOnExp_no_exp (fun c hc =>
    ⟨(digit_ne_special (hd1 c hc)).1, (digit_ne_special (hd1 c hc)).2.1⟩)]
  simp only
  rw [if_neg (by simp [h1])]
  rw [splitOnDot_no_dot (fun c hc => (digit_ne_special (hd1 c hc)).2.2.1)]
  simp only
  rw [parseBigInt_digits h1 hd1]
  simp

/-- Parsing a signed plain decimal digit string with a fractional part. -/
theorem fromStr_neg_digits_dot {d1 d2 : List Char} (h1 : d1 ≠ [])
    (hd1 : ∀ c ∈ d1, isDigitChar c = true) (h2 : d2 ≠ [])
    (hd2 : ∀ c ∈ d2, isDigitChar c = true) :
    BigDecimal.fromStr ⟨'-' :: (d1 ++ '.' :: d2)⟩
      = some ⟨-(readNat (d1 ++ d2) : Int), (d2.length : Int)⟩ := by
  have hall : ∀ c ∈ '-' :: (d1 ++ '.' :: d2), c ≠ 'e' ∧ c ≠ 'E' := by
    intro c hc
    rcases List.mem_cons.mp hc with rfl | hc
    · exact ⟨by decide, by decide⟩
    rcases List.mem_append.mp hc with hc | hc
    · exact ⟨(digit_ne_special (hd1 c hc)).1, (digit_ne_special (hd1 c hc)).2.1⟩
    · rcases List.mem_cons.mp hc with rfl | hc
      · exact ⟨by decide, by decide⟩
      · exact ⟨(digit_ne_special (hd2 c hc)).1, (digit_ne_special (hd2 c hc)).2.1⟩
  unfold BigDecimal.fromStr
  rw [show (String.mk ('-' :: (d1 ++ '.' :: d2))).data = '-' :: (d1 ++ '.' :: d2) from rfl]
  rw [splitOnExp_no_exp hall]
  simp only
  rw [if_neg (by simp)]
  rw [show ('-' :: (d1 ++ '.' :: d2)) = ('-' :: d1) ++ '.' :: d2 from rfl]
  rw [splitOnDot_append (by
    intro c hc
    rcases List.mem_cons.mp hc with rfl | hc
    · decide
    · exact (digit_ne_special (hd1 c hc)).2.2.1)]
  simp only
  rw [show ('-' :: d1) ++ d2 = '-' :: (d1 ++ d2) from rfl]
  rw [parseBigInt_neg_digits (by simp [h1]) (by
    intro c hc
    rcases List.mem_append.mp hc with hc | hc
    · exact hd1 c hc
    · exact hd2 c hc)]
  simp

/-- Parsing a signed plain decimal digit string without a fractional part. -/
theorem fromStr_neg_digits {d1 : List Char} (h1 : d1 ≠ [])
    (hd1 : ∀ c ∈ d1, isDigitChar c = true) :
    BigDecimal.fromStr ⟨'-' :: d1⟩ = some ⟨-(readNat d1 : Int), 0⟩ := by
  unfold BigDecimal.fromStr
  rw [show (String.mk ('-' :: d1)).data = '-' :: d1 from rfl]
  rw [splitOnExp_no_exp (by
    intro c hc
    rcases List.mem_cons.mp hc with rfl | hc
    · exact ⟨by decide, by decide⟩
    · exact ⟨(digit_ne_special (hd1 c hc)).1, (digit_ne_special (hd1 c hc)).2.1⟩)]
  simp only
  rw [if_neg (by simp)]
  rw [splitOnDot_no_dot (by
    intro c hc
    rcases List.mem_cons.mp hc with rfl | hc
    · decide
    · exact (digit_ne_special (hd1 c hc)).2.2.1)]
  simp only
  rw [parseBigInt_neg_digits h1 hd1]
  simp

/-! ## Theorems: the decimal codec round-trips -/

theorem replicate_zero_digits (k : Nat) :
    ∀ c ∈ List.replicate k '0', isDigitChar c = true := by
  intro c hc
  rw [List.eq_of_mem_replicate hc]
  decide

/-- Models `to_string` followed by `from_str` recovers a `BigDecimal` with the same
value (in the in-place and behind-the-point branches, even the same
representation). -/
theorem BigDecimal.fromStr_toStr (x : BigDecimal) :
    ∃ y : BigDecimal, fromStr (toStr x) = some y ∧ y.val = x.val := by
  obtain ⟨v, s⟩ := x
  have hAne : natStr v.natAbs ≠ [] := natStr_ne_nil v.natAbs
  have hAd : ∀ c ∈ natStr v.natAbs, isDigitChar c = true := natStr_all_digits v.natAbs
  have hAread : readNat (natStr v.natAbs) = v.natAbs := readNat_natStr v.natAbs
  have hL1 : 1 ≤ (natStr v.natAbs).length := List.length_pos.mpr hAne
  by_cases h1 : ((natStr v.natAbs).length : Int) ≤ s
  · -- the abs digit string falls entirely behind the decimal point
    have hrep : ∀ c ∈ List.replicate (s - ((natStr v.natAbs).length : Int)).toNat '0' ++
        natStr v.natAbs, isDigitChar c = true := by
      intro c hc
      rcases List.mem_append.mp hc with hc | hc
      · exact replicate_zero_digits _ c hc
      · exact hAd c hc
    have hrne : List.replicate (s - ((natStr v.natAbs).length : Int)).toNat '0' ++
        natStr v.natAbs ≠ [] := by simp [hAne]
    have hread : readNat (['0'] ++ (List.replicate
        (s - ((natStr v.natAbs).length : Int)).toNat '0' ++ natStr v.natAbs)) = v.natAbs := by
      unfold readNat
      rw [readNatAux_append, readNatAux_append]
      have h0 : readNatAux 0 ['0'] = 0 := by decide
      rw [h0, readNatAux_replicate_zero]
      simpa using hAread
    have hlen : ((List.replicate (s - ((natStr v.natAbs).length : Int)).toNat '0' ++
        natStr v.natAbs).length : Int) = s := by
      rw [List.length_append, List.length_replicate]
      omega
    by_cases hneg : v < 0
    · have hts : toStr ⟨v, s⟩ = ⟨'-' :: (['0'] ++ '.' ::
          (List.replicate (s - ((natStr v.natAbs).length : Int)).toNat '0' ++
            natStr v.natAbs))⟩ := by
        unfold toStr fmtWith
        simp only
        rw [if_pos h1, if_neg hrne]
        simp [hneg]
      rw [hts]
      refine ⟨_, fromStr_neg_digits_dot (by simp)
        (by intro c hc; simp at hc; subst hc; decide) hrne hrep, ?_⟩
      rw [hread, hlen]
      have hv : -(v.natAbs : Int) = v := by omega
      rw [hv]
    · have hts : toStr ⟨v, s⟩ = ⟨['0'] ++ '.' ::
          (List.replicate (s - ((natStr v.natAbs).length : Int)).toNat '0' ++
            natStr v.natAbs)⟩ := by
        unfold toStr fmtWith
        simp only
        rw [if_pos h1, if_neg hrne]
        simp [hneg]
      rw [hts]
      refine ⟨_, fromStr_digits_dot (by simp)
        (by intro c hc; simp at hc; subst hc; decide) hrne hrep, ?_⟩
      rw [hread, hlen]
      have hv : (v.natAbs : Int) = v := by omega
      rw [hv]
  · by_cases h2 : s < 0
    · -- negative scale: append zeros, no decimal point
      have hdig : ∀ c ∈ natStr v.natAbs ++ List.replicate (-s).toNat '0',
          isDigitChar c = true := by
        intro c hc
        rcases List.mem_append.mp hc with hc | hc
        · exact hAd c hc
        · exact replicate_zero_digits _ c hc
      have hne2 : natStr v.natAbs ++ List.replicate (-s).toNat '0' ≠ [] := by
        simp [hAne]
      have hread : readNat (natStr v.natAbs ++ List.replicate (-s).toNat '0')
          = v.natAbs * 10 ^ (-s).toNat := by
        unfold readNat
        rw [readNatAux_append, readNatAux_replicate_zero]
        unfold readNat at hAread
        rw [hAread]
      have hzpow : ((10 : ℚ) ^ (-s)) = ((10 : ℚ) ^ ((-s).toNat)) := by
        rw [← zpow_natCast (10 : ℚ) (-s).toNat, Int.toNat_of_nonneg (by omega)]
      by_cases hneg : v < 0
      · have hts : toStr ⟨v, s⟩ = ⟨'-' ::
            (natStr v.natAbs ++ List.replicate (-s).toNat '0')⟩ := by
          unfold toStr fmtWith
          simp only
          rw [if_neg h1, if_pos (show ((natStr v.natAbs).length : Int)
            < ((natStr v.natAbs).length : Int) - s by omega)]
          simp [hneg]
        rw [hts]
        refine ⟨_, fromStr_neg_digits hne2 hdig, ?_⟩
        rw [hread]
        unfold val
        simp only [neg_zero, zpow_zero, mul_one]
        rw [hzpow]
        push_cast
        rw [abs_of_neg (show (v : ℚ) < 0 by exact_mod_cast hneg)]
        ring
      · have hts : toStr ⟨v, s⟩ = ⟨natStr v.natAbs ++ List.replicate (-s).toNat '0'⟩ := by
          unfold toStr fmtWith
          simp only
          rw [if_neg h1, if_pos (show ((natStr v.natAbs).length : Int)
            < ((natStr v.natAbs).length : Int) - s by omega)]
          simp [hneg]
        rw [hts]
        refine ⟨_, fromStr_digits hne2 hdig, ?_⟩
        rw [hread]
        unfold val
        simp only [neg_zero, zpow_zero, mul_one]
        rw [hzpow]
        push_cast
        rw [abs_of_nonneg (show (0 : ℚ) ≤ v by exact_mod_cast not_lt.mp hneg)]
    · -- 0 ≤ s < len: split in place
      by_cases hz : s = 0
      · subst hz
        have htake : (natStr v.natAbs).take
            (((natStr v.natAbs).length : Int) - 0).toNat = natStr v.natAbs := by
          apply List.take_of_length_le
          omega
        have hdrop : (natStr v.natAbs).drop
            (((natStr v.natAbs).length : Int) - 0).toNat = [] := by
          apply List.drop_eq_nil_of_le
          omega
        by_cases hneg : v < 0
        · have hts : toStr ⟨v, 0⟩ = ⟨'-' :: natStr v.natAbs⟩ := by
            unfold toStr fmtWith
            simp only
            rw [if_neg h1, if_neg (show ¬(((natStr v.natAbs).length : Int)
              < ((natStr v.natAbs).length : Int) - 0) by omega), htake, hdrop]
            simp [hneg]
          rw [hts]
          refine ⟨_, fromStr_neg_digits hAne hAd, ?_⟩
          rw [hAread]
          have hv : -(v.natAbs : Int) = v := by omega
          rw [hv]
        · have hts : toStr ⟨v, 0⟩ = ⟨natStr v.natAbs⟩ := by
            unfold toStr fmtWith
            simp only
            rw [if_neg h1, if_neg (show ¬(((natStr v.natAbs).length : Int)
              < ((natStr v.natAbs).length : Int) - 0) by omega), htake, hdrop]
            simp [hneg]
          rw [hts]
          refine ⟨_, fromStr_digits hAne hAd, ?_⟩
          rw [hAread]
          have hv : (v.natAbs : Int) = v := by omega
          rw [hv]
      · -- 0 < s < len: both parts nonempty
        have htne : (natStr v.natAbs).take (((natStr v.natAbs).length : Int) - s).toNat
            ≠ [] := by
          rw [← List.length_pos, List.length_take]
          omega
        have hdne : (natStr v.natAbs).drop (((natStr v.natAbs).length : Int) - s).toNat
            ≠ [] := by
          rw [← List.length_pos, List.length_drop]
          omega
        have htd : ∀ c ∈ (natStr v.natAbs).take (((natStr v.natAbs).length : Int) - s).toNat,
            isDigitChar c = true :=
          fun c hc => hAd c (List.take_subset _ _ hc)
        have hdd : ∀ c ∈ (natStr v.natAbs).drop (((natStr v.natAbs).length : Int) - s).toNat,
            isDigitChar c = true :=
          fun c hc => hAd c (List.drop_subset _ _ hc)
        have hread : readNat
            ((natStr v.natAbs).take (((natStr v.natAbs).length : Int) - s).toNat ++
             (natStr v.natAbs).drop (((natStr v.natAbs).length : Int) - s).toNat)
            = v.natAbs := by
          rw [List.take_append_drop]
          exact hAread
        have hlen : (((natStr v.natAbs).drop
            (((natStr v.natAbs).length : Int) - s).toNat).length : Int) = s := by
          rw [List.length_drop]
          omega
        by_cases hneg : v < 0
        · have hts : toStr ⟨v, s⟩ = ⟨'-' ::
              ((natStr v.natAbs).take (((natStr v.natAbs).length : Int) - s).toNat ++ '.' ::
               (natStr v.natAbs).drop (((natStr v.natAbs).length : Int) - s).toNat)⟩ := by
            unfold toStr fmtWith
            simp only
            rw [if_neg h1, if_neg (show ¬(((natStr v.natAbs).length : Int)
              < ((natStr v.natAbs).length : Int) - s) by omega), if_neg hdne]
            simp [hneg]
          rw [hts]
          refine ⟨_, fromStr_neg_digits_dot htne htd hdne hdd, ?_⟩
          rw [hread, hlen]
          have hv : -(v.natAbs : Int) = v := by omega
          rw [hv]
        · have hts : toStr ⟨v, s⟩ = ⟨(natStr v.natAbs).take
              (((natStr v.natAbs).length : Int) - s).toNat ++ '.' ::
               (natStr v.natAbs).drop (((natStr v.natAbs).length : Int) - s).toNat⟩ := by
            unfold toStr fmtWith
            simp only
            rw [if_neg h1, if_neg (show ¬(((natStr v.natAbs).length : Int)
              < ((natStr v.natAbs).length : Int) - s) by omega), if_neg hdne]
            simp [hneg]
          rw [hts]
          refine ⟨_, fromStr_digits_dot htne htd hdne hdd, ?_⟩
          rw [hread, hlen]
          have hv : (v.natAbs : Int) = v := by omega
          rw [hv]

/-! ## Theorems: RFC 3339 parsing of formatted output -/

theorem padDigits_two (n : Nat) :
    padDigits 2 n = [dChar (n / 10 % 10), dChar (n % 10)] := by
  simp [padDigits, pow_succ, pow_zero, Nat.div_one]

theorem read2_padDigits (n : Nat) (h : n < 100) (rest : List Char) :
    read2 (padDigits 2 n ++ rest) = some (n, rest) := by
  rw [padDigits_two]
  simp only [List.cons_append, List.nil_append, read2,
    readDigit_dChar (Nat.mod_lt _ (by norm_num)), readDigit_dChar (Nat.mod_lt _ (by norm_num))]
  congr 1
  congr 1
  omega

theorem padDigits_four (n : Nat) :
    padDigits 4 n = [dChar (n / 1000 % 10), dChar (n / 100 % 10),
      dChar (n / 10 % 10), dChar (n % 10)] := by
  simp [padDigits]

theorem read4_padDigits (n : Nat) (h : n < 10000) (rest : List Char) :
    read4 (padDigits 4 n ++ rest) = some (n, rest) := by
  rw [padDigits_four]
  simp only [List.cons_append, List.nil_append, read4,
    readDigit_dChar (Nat.mod_lt _ (by norm_num)), readDigit_dChar (Nat.mod_lt _ (by norm_num)),
    readDigit_dChar (Nat.mod_lt _ (by norm_num)), readDigit_dChar (Nat.mod_lt _ (by norm_num))]
  congr 1
  congr 1
  omega

theorem expectChar_cons (c : Char) (rest : List Char) :
    expectChar c (c :: rest) = some rest := by
  simp [expectChar]

theorem expectSep_T (rest : List Char) : expectSep ('T' :: rest) = some rest := by
  simp [expectSep]

theorem takeDigits_append {ds : List Char} (hd : ∀ c ∈ ds, isDigitChar c = true)
    {c : Char} (hc : isDigitChar c = false) (rest : List Char) :
    takeDigits (ds ++ c :: rest) = (ds, c :: rest) := by
  induction ds with
  | nil =>
      rw [List.nil_append]
      unfold takeDigits
      rw [hc]
      rfl
  | cons d ds ih =>
      rw [List.cons_append]
      unfold takeDigits
      rw [hd d (by simp), ih (fun e he => hd e (by simp [he]))]
      rfl

/-- The character that opens `offsetChars` is the offset sign. -/
theorem offsetChars_head_not_digit (off : Int) :
    isDigitChar (if off < 0 then '-' else '+') = false := by
  split <;> decide

/-- Reading back the `AutoSi` fractional part, stopping at the offset sign. -/
theorem readFrac_fracChars (nano : Nat) (h : nano < 1000000000) (off : Int) :
    readFrac (fracChars nano ++ offsetChars off) = some (nano, offsetChars off) := by
  unfold fracChars
  by_cases h0 : nano = 0
  · subst h0
    rw [if_pos rfl, List.nil_append]
    unfold offsetChars
    by_cases hoff : off < 0
    · rw [if_pos hoff]
      simp only [readFrac]
      rw [if_neg (by decide : ¬('-' : Char) = '.')]
    · rw [if_neg hoff]
      simp only [readFrac]
      rw [if_neg (by decide : ¬('+' : Char) = '.')]
  · rw [if_neg h0]
    have hsign := offsetChars_head_not_digit off
    by_cases h6 : nano % 1000000 = 0
    · rw [if_pos h6]
      have htd : takeDigits (padDigits 3 (nano / 1000000) ++ offsetChars off)
          = (padDigits 3 (nano / 1000000), offsetChars off) := by
        unfold offsetChars
        exact takeDigits_append (padDigits_all_digits 3 _) hsign _
      rw [List.cons_append]
      simp only [readFrac, htd, if_true]
      rw [if_neg (by simp [padDigits])]
      have h9 : (padDigits 3 (nano / 1000000)).take 9 = padDigits 3 (nano / 1000000) :=
        List.take_of_length_le (by rw [padDigits_length]; omega)
      have hrn : readNat (padDigits 3 (nano / 1000000)) = nano / 1000000 := by
        unfold readNat
        rw [readNatAux_padDigits]
        omega
      rw [h9, hrn, padDigits_length]
      have hval : nano / 1000000 * 10 ^ (9 - 3) = nano := by
        norm_num
        omega
      rw [hval]
    · rw [if_neg h6]
      by_cases h3 : nano % 1000 = 0
      · rw [if_pos h3]
        have htd : takeDigits (padDigits 6 (nano / 1000) ++ offsetChars off)
            = (padDigits 6 (nano / 1000), offsetChars off) := by
          unfold offsetChars
          exact takeDigits_append (padDigits_all_digits 6 _) hsign _
        rw [List.cons_append]
        simp only [readFrac, htd, if_true]
        rw [if_neg (by simp [padDigits])]
        have h9 : (padDigits 6 (nano / 1000)).take 9 = padDigits 6 (nano / 1000) :=
          List.take_of_length_le (by rw [padDigits_length]; omega)
        have hrn : readNat (padDigits 6 (nano / 1000)) = nano / 1000 := by
          unfold readNat
          rw [readNatAux_padDigits]
          omega
        rw [h9, hrn, padDigits_length]
        have hval : nano / 1000 * 10 ^ (9 - 6) = nano := by
          norm_num
          omega
        rw [hval]
      · rw [if_neg h3]
        have htd : takeDigits (padDigits 9 nano ++ offsetChars off)
            = (padDigits 9 nano, offsetChars off) := by
          unfold offsetChars
          exact takeDigits_append (padDigits_all_digits 9 _) hsign _
        rw [List.cons_append]
        simp only [readFrac, htd, if_true]
        rw [if_neg (by simp [padDigits])]
        have h9 : (padDigits 9 nano).take 9 = padDigits 9 nano :=
          List.take_of_length_le (by rw [padDigits_length])
        have hrn : readNat (padDigits 9 nano) = nano := by
          unfold readNat
          rw [readNatAux_padDigits]
          omega
        rw [h9, hrn, padDigits_length]
        norm_num

/-- Reading back the formatted offset recovers it exactly when it is a whole
number of minutes. -/
theorem readOffset_offsetChars (off : Int) (h60 : off % 60 = 0)
    (hlow : -86400 < off) (hhigh : off < 86400) :
    readOffset (offsetChars off) = some off := by
  have ha : off.natAbs < 86400 := by omega
  have hh2 : off.natAbs / 3600 / 10 % 10 * 10 + off.natAbs / 3600 % 10
      = off.natAbs / 3600 := by omega
  have hm2 : off.natAbs / 60 % 60 / 10 % 10 * 10 + off.natAbs / 60 % 60 % 10
      = off.natAbs / 60 % 60 := by omega
  have hd1 := readDigit_dChar (Nat.mod_lt (off.natAbs / 3600 / 10) (by norm_num))
  have hd2 := readDigit_dChar (Nat.mod_lt (off.natAbs / 3600) (by norm_num))
  have hd3 := readDigit_dChar (Nat.mod_lt (off.natAbs / 60 % 60 / 10) (by norm_num))
  have hd4 := readDigit_dChar (Nat.mod_lt (off.natAbs / 60 % 60) (by norm_num))
  unfold offsetChars
  show readOffset ((if off < 0 then '-' else '+') ::
    (padDigits 2 (off.natAbs / 3600) ++ ':' :: padDigits 2 (off.natAbs / 60 % 60))) = some off
  rw [padDigits_two, padDigits_two]
  by_cases hoff : off < 0
  · rw [if_pos hoff]
    show readOffset ['-', dChar (off.natAbs / 3600 / 10 % 10), dChar (off.natAbs / 3600 % 10),
      ':', dChar (off.natAbs / 60 % 60 / 10 % 10), dChar (off.natAbs / 60 % 60 % 10)]
      = some off
    simp only [readOffset, hd1, hd2, hd3, hd4]
    rw [hh2, hm2]
    rw [if_pos (show ('-' = '+' ∨ True) ∧ True by simp)]
    rw [if_pos (show off.natAbs / 60 % 60 < 60 ∧
      off.natAbs / 3600 * 3600 + off.natAbs / 60 % 60 * 60 < 86400 from
        ⟨Nat.mod_lt _ (by norm_num), by omega⟩)]
    rw [if_pos (trivial : True)]
    have ha60 : off.natAbs % 60 = 0 := by omega
    have hsum : off.natAbs / 3600 * 3600 + off.natAbs / 60 % 60 * 60 = off.natAbs := by
      omega
    rw [hsum]
    congr 1
    omega
  · rw [if_neg hoff]
    show readOffset ['+', dChar (off.natAbs / 3600 / 10 % 10), dChar (off.natAbs / 3600 % 10),
      ':', dChar (off.natAbs / 60 % 60 / 10 % 10), dChar (off.natAbs / 60 % 60 % 10)]
      = some off
    simp only [readOffset, hd1, hd2, hd3, hd4]
    rw [hh2, hm2]
    rw [if_pos (show (True ∨ '+' = '-') ∧ True by simp)]
    rw [if_pos (show off.natAbs / 60 % 60 < 60 ∧
      off.natAbs / 3600 * 3600 + off.natAbs / 60 % 60 * 60 < 86400 from
        ⟨Nat.mod_lt _ (by norm_num), by omega⟩)]
    rw [if_neg (by decide : ¬('+' : Char) = '-')]
    have ha60 : off.natAbs % 60 = 0 := by omega
    have hsum : off.natAbs / 3600 * 3600 + off.natAbs / 60 % 60 * 60 = off.natAbs := by
      omega
    rw [hsum]
    congr 1
    omega

theorem daysInMonth_le (y : Int) (m : Nat) : daysInMonth y m ≤ 31 := by
  unfold daysInMonth
  split
  · split <;> norm_num
  · split <;> norm_num

/-- RFC 3339 serialization round-trips to the very same timestamp whenever
the offset is a whole number of minutes and the year is four digits. -/
theorem parseRfc3339_toRfc3339 (t : DateTimeFO) (h60 : t.offset % 60 = 0)
    (hy0 : 0 ≤ t.year) (hy9 : t.year ≤ 9999) :
    parseRfc3339 (toRfc3339 t) = some t := by
  obtain ⟨y, mo, d, h, mi, sec, nano, off, hv⟩ := t
  simp only at h60 hy0 hy9
  have hvv := hv
  obtain ⟨hmo1, hmo2, hd1, hd2, hh, hmi, hsec, hnano, ho1, ho2, hy1, hy2⟩ := hvv
  have hdm := daysInMonth_le y mo
  have hyc : yearChars y = padDigits 4 y.toNat := by
    unfold yearChars
    rw [if_pos ⟨hy0, hy9⟩]
  have e1 := read4_padDigits y.toNat (by omega)
  have e2 := read2_padDigits mo (by omega)
  have e3 := read2_padDigits d (by omega)
  have e4 := read2_padDigits h (by omega)
  have e5 := read2_padDigits mi (by omega)
  have e6 := read2_padDigits sec (by omega)
  have e7 := readFrac_fracChars nano hnano off
  have e8 := readOffset_offsetChars off h60 ho1 ho2
  have hyy : ((y.toNat : Int)) = y := Int.toNat_of_nonneg hy0
  unfold toRfc3339 parseRfc3339
  simp only [hyc, e1, e2, e3, e4, e5, e6, e7, e8, expectChar_cons, expectSep_T,
    Option.bind_eq_bind, Option.some_bind', hyy]
  unfold mkDT
  rw [dif_pos hv]

/-- C4 (amended): the decimal codec round-trips exactly: for every
representable decimal `x`, parsing the canonical string produced by
formatting `x` succeeds and yields a value equal to `x` (both for the raw
`to_string`/`from_str` pair and for the serde field codec).  The timestamp
codec round-trips to an equal instant for every timestamp whose UTC offset
is a whole number of minutes and whose year lies in `0..=9999`; outside
these ranges the RFC 3339 rendering truncates the offset's seconds
(`±HH:MM`) or prints a signed year the parser rejects, so the round trip
fails (see the counterexample). -/
theorem C4_codec_round_trip :
    (∀ x : BigDecimal, ∃ y, BigDecimal.fromStr (BigDecimal.toStr x) = some y ∧
        y.val = x.val) ∧
    (∀ x : BigDecimal, ∃ y, deserialize_bigdecimal (serialize_bigdecimal x) = .ok y ∧
        y.val = x.val) ∧
    (∀ t : DateTimeFO, t.offset % 60 = 0 → 0 ≤ t.year → t.year ≤ 9999 →
        ∃ u, parseRfc3339 (toRfc3339 t) = some u ∧ u.instEq t) ∧
    (∀ t : DateTimeFO, t.offset % 60 = 0 → 0 ≤ t.year → t.year ≤ 9999 →
        deserialize_datetime (serialize_datetime t) = .ok t) := by
  refine ⟨BigDecimal.fromStr_toStr, ?_, ?_, ?_⟩
  · intro x
    obtain ⟨y, hy, hval⟩ := BigDecimal.fromStr_toStr x
    exact ⟨y, by simp [deserialize_bigdecimal, serialize_bigdecimal, hy], hval⟩
  · intro t h60 hy0 hy9
    exact ⟨t, parseRfc3339_toRfc3339 t h60 hy0 hy9, rfl⟩
  · intro t h60 hy0 hy9
    simp [deserialize_datetime, serialize_datetime, parseRfc3339_toRfc3339 t h60 hy0 hy9]

/-- C4 counterexample: the timestamp 2026-02-09T12:00:00 at offset 3661 s
(not a whole number of minutes) serializes to `…+01:01`, which parses back to
an instant one second away; and the year-10000 timestamp serializes to
`+10000-…`, which `parse_from_rfc3339` rejects outright. -/
theorem C4_codec_round_trip_counterexample :
    (parseRfc3339 (toRfc3339 dtOffsetCex)).map DateTimeFO.toInstant
      ≠ some dtOffsetCex.toInstant ∧
    parseRfc3339 (toRfc3339 dtYearCex) = none := by
  constructor
  · decide
  · exact Option.isNone_iff_eq_none.mp (by decide)

/-- C4 witness: the decimal `12.34` and the timestamp
2026-02-09T12:00:00+00:00 round-trip. -/
theorem C4_codec_round_trip_witness :
    (∃ y, BigDecimal.fromStr (BigDecimal.toStr ⟨1234, 2⟩) = some y ∧
        y.val = BigDecimal.val ⟨1234, 2⟩) ∧
    (dt0.offset % 60 = 0 ∧ 0 ≤ dt0.year ∧ dt0.year ≤ 9999 ∧
      ∃ u, parseRfc3339 (toRfc3339 dt0) = some u ∧ u.instEq dt0) :=
  ⟨C4_codec_round_trip.1 ⟨1234, 2⟩,
   by decide, by decide, by decide,
   C4_codec_round_trip.2.2.1 dt0 (by decide) (by decide) (by decide)⟩

/-- C5: a `LineItem` built with quantity 2 and price 9.50 (the decimal
`⟨950, 2⟩`, i.e. `BigDecimal::from_str("9.50")`) has total equal to the
exact decimal 19.00 (`⟨1900, 2⟩` = `from_str("19.00")`); in general the total
of every successfully built line item equals `quantity * price` exactly, in
both variants (stored field and on-demand accessor). -/
theorem C5_line_item_total :
    (∀ (b : RootCrate.LineItemBuilder) (item : RootCrate.LineItem),
        b.build = .ok item → item.total.val = (item.quantity : ℚ) * item.price.val) ∧
    (∀ l : PdfCrate.LineItem, l.total.val = (l.quantity : ℚ) * l.price.val) ∧
    BigDecimal.fromStr "9.50" = some ⟨950, 2⟩ ∧
    BigDecimal.fromStr "19.00" = some ⟨1900, 2⟩ ∧
    (∀ (b : RootCrate.LineItemBuilder) (item : RootCrate.LineItem),
        b.quantity = some 2 → b.price = some ⟨950, 2⟩ → b.build = .ok item →
        BigDecimal.beq item.total ⟨1900, 2⟩) ∧
    (∀ (b : PdfCrate.LineItemBuilder) (item : PdfCrate.LineItem),
        b.quantity = some 2 → b.price = some ⟨950, 2⟩ → b.build = .ok item →
        BigDecimal.beq item.total ⟨1900, 2⟩) := by
  refine ⟨?_, ?_, by decide, by decide, ?_, ?_⟩
  · intro b item h
    rw [rootLineItemBuilder_build_ok_iff] at h
    obtain ⟨s, t, q, p, _, _, _, _, rfl⟩ := h
    exact BigDecimal.val_mulInt q p
  · intro l
    exact BigDecimal.val_mulInt l.quantity l.price
  · intro b item hq hp h
    rw [rootLineItemBuilder_build_ok_iff] at h
    obtain ⟨s, t, q, p, _, _, hq2, hp2, rfl⟩ := h
    rw [hq] at hq2
    rw [hp] at hp2
    cases hq2
    cases hp2
    show BigDecimal.beq (BigDecimal.mulInt 2 ⟨950, 2⟩) ⟨1900, 2⟩
    decide
  · intro b item hq hp h
    rw [pdfLineItemBuilder_build_ok_iff] at h
    obtain ⟨s, t, q, p, _, _, hq2, hp2, rfl⟩ := h
    rw [hq] at hq2
    rw [hp] at hp2
    cases hq2
    cases hp2
    show BigDecimal.beq (BigDecimal.mulInt 2 ⟨950, 2⟩) ⟨1900, 2⟩
    decide

/-- C5 witness: the concrete line item of the test suite (sku ABC123,
quantity 2, price 9.50). -/
theorem C5_line_item_total_witness :
    (RootCrate.LineItemBuilder.mk (some "ABC123") (some "Gadget") (some 2)
        (some ⟨950, 2⟩)).build
      = .ok ⟨"ABC123", "Gadget", 2, ⟨950, 2⟩, ⟨1900, 2⟩⟩ ∧
    BigDecimal.beq (RootCrate.LineItem.mk "ABC123" "Gadget" 2 ⟨950, 2⟩ ⟨1900, 2⟩).total
      ⟨1900, 2⟩ :=
  ⟨rfl,
   C5_line_item_total.2.2.2.2.1
     (RootCrate.LineItemBuilder.mk (some "ABC123") (some "Gadget") (some 2) (some ⟨950, 2⟩))
     ⟨"ABC123", "Gadget", 2, ⟨950, 2⟩, ⟨1900, 2⟩⟩ rfl rfl rfl⟩

/-- C7: decoding fails rather than defaulting on malformed scalar input:
whenever the decimal (resp. RFC 3339) parse fails, the field deserializer
returns the `MalformedNumber` (resp. `MalformedTimestamp`) decode error
carrying the raw string, and never any success value. -/
theorem C7_decode_error_not_default :
    (∀ s : String, BigDecimal.fromStr s = none →
        deserialize_bigdecimal s = .error (.MalformedNumber s) ∧
        ∀ v, deserialize_bigdecimal s ≠ .ok v) ∧
    (∀ s : String, parseRfc3339 s = none →
        deserialize_datetime s = .error (.MalformedTimestamp s) ∧
        ∀ v, deserialize_datetime s ≠ .ok v) := by
  constructor
  · intro s h
    constructor
    · simp [deserialize_bigdecimal, h]
    · intro v
      simp [deserialize_bigdecimal, h]
  · intro s h
    constructor
    · simp [deserialize_datetime, h]
    · intro v
      simp [deserialize_datetime, h]

/-- C7 witness: the non-numeric string of the test suite (`"reee"`) is
rejected by both deserializers. -/
theorem C7_decode_error_not_default_witness :
    BigDecimal.fromStr "reee" = none ∧
    deserialize_bigdecimal "reee" = .error (.MalformedNumber "reee") ∧
    parseRfc3339 "reee" = none ∧
    deserialize_datetime "reee" = .error (.MalformedTimestamp "reee") :=
  ⟨by decide,
   (C7_decode_error_not_default.1 "reee" (by decide)).1,
   Option.isNone_iff_eq_none.mp (by decide),
   (C7_decode_error_not_default.2 "reee"
     (Option.isNone_iff_eq_none.mp (by decide))).1⟩

/-- The fractional part produced under precision 2 (pad with zeros or
truncate) is exactly two digit characters. -/
theorem after_prec2 (bp2 : List Char) (hd : ∀ c ∈ bp2, isDigitChar c = true) :
    ∃ a b : Char, (if bp2.length < 2 then bp2 ++ List.replicate (2 - bp2.length) '0'
        else bp2.take 2) = [a, b] ∧ isDigitChar a = true ∧ isDigitChar b = true := by
  match bp2, hd with
  | [], _ => exact ⟨'0', '0', rfl, by decide, by decide⟩
  | [c], hd => exact ⟨c, '0', rfl, hd c (by simp), by decide⟩
  | c1 :: c2 :: rest, hd =>
      refine ⟨c1, c2, ?_, hd c1 (by simp), hd c2 (by simp)⟩
      rw [if_neg (by simp)]
      rfl

/-- Models `format!("{:.2}", x)` always renders as `<prefix>.<digit><digit>`. -/
theorem fmtPrec2_shape (x : BigDecimal) :
    ∃ (pre : List Char) (a b : Char), x.fmtPrec2 = ⟨pre ++ '.' :: [a, b]⟩ ∧
      isDigitChar a = true ∧ isDigitChar b = true := by
  obtain ⟨v, s⟩ := x
  have hAd := natStr_all_digits v.natAbs
  unfold BigDecimal.fmtPrec2 BigDecimal.fmtWith
  simp only
  by_cases h1 : ((natStr v.natAbs).length : Int) ≤ s
  · rw [if_pos h1]
    obtain ⟨a, b, hab, ha, hb⟩ := after_prec2
      (List.replicate (s - ((natStr v.natAbs).length : Int)).toNat '0' ++
        natStr v.natAbs)
      (by
        intro c hc
        rcases List.mem_append.mp hc with hc | hc
        · exact replicate_zero_digits _ c hc
        · exact hAd c hc)
    rw [hab, if_neg (show ¬([a, b] = []) by simp)]
    by_cases hneg : v < 0
    · exact ⟨['-', '0'], a, b, by simp [hneg], ha, hb⟩
    · exact ⟨['0'], a, b, by simp [hneg], ha, hb⟩
  · by_cases h2 : s < 0
    · rw [if_neg h1, if_pos (show ((natStr v.natAbs).length : Int)
        < ((natStr v.natAbs).length : Int) - s by omega)]
      obtain ⟨a, b, hab, ha, hb⟩ := after_prec2 ([] : List Char) (by simp)
      rw [hab, if_neg (show ¬([a, b] = []) by simp)]
      by_cases hneg : v < 0
      · exact ⟨'-' :: (natStr v.natAbs ++ List.replicate (-s).toNat '0'), a, b,
          by simp [hneg], ha, hb⟩
      · exact ⟨natStr v.natAbs ++ List.replicate (-s).toNat '0', a, b,
          by simp [hneg], ha, hb⟩
    · rw [if_neg h1, if_neg (show ¬(((natStr v.natAbs).length : Int)
        < ((natStr v.natAbs).length : Int) - s) by omega)]
      obtain ⟨a, b, hab, ha, hb⟩ := after_prec2
        ((natStr v.natAbs).drop (((natStr v.natAbs).length : Int) - s).toNat)
        (fun c hc => hAd c (List.drop_subset _ _ hc))
      rw [hab, if_neg (show ¬([a, b] = []) by simp)]
      by_cases hneg : v < 0
      · exact ⟨'-' :: (natStr v.natAbs).take (((natStr v.natAbs).length : Int) - s).toNat,
          a, b, by simp [hneg], ha, hb⟩
      · exact ⟨(natStr v.natAbs).take (((natStr v.natAbs).length : Int) - s).toNat,
          a, b, by simp [hneg], ha, hb⟩

/-- C10: the template filters are total and never fail: `format_ymd` returns
the `YYYY-MM-DD` part of its input when it parses as RFC 3339 and the
sentinel `"N/A"` otherwise; `pretty_price` returns a dollar-prefixed
rendering with exactly two fractional digits when its input parses as a
decimal and the sentinel `"NaN"` otherwise. -/
theorem C10_template_filters_total :
    (∀ s : String, (parseRfc3339 s = none ∧ format_ymd s = "N/A") ∨
        (∃ t, parseRfc3339 s = some t ∧ format_ymd s =
          ⟨padDigits 4 t.year.toNat ++ '-' ::
            (padDigits 2 t.month ++ '-' :: padDigits 2 t.day)⟩)) ∧
    (∀ s : String, BigDecimal.fromStr s = none → pretty_price s = "NaN") ∧
    (∀ (s : String) (dec : BigDecimal), BigDecimal.fromStr s = some dec →
        ∃ (pre : List Char) (a b : Char),
          pretty_price s = ⟨'$' :: (pre ++ '.' :: [a, b])⟩ ∧
          isDigitChar a = true ∧ isDigitChar b = true) := by
  refine ⟨?_, ?_, ?_⟩
  · intro s
    cases hp : parseRfc3339 s with
    | none => exact Or.inl ⟨rfl, by simp [format_ymd, hp]⟩
    | some t => exact Or.inr ⟨t, rfl, by simp [format_ymd, hp]⟩
  · intro s h
    simp [pretty_price, h]
  · intro s dec h
    obtain ⟨pre, a, b, hab, ha, hb⟩ := fmtPrec2_shape dec
    refine ⟨pre, a, b, ?_, ha, hb⟩
    simp only [pretty_price, h, hab]
    rfl

/-- C10 witness: the doc-test inputs: `"12.5"` renders as `$12.50`, a
non-numeric string as `NaN`. -/
theorem C10_template_filters_total_witness :
    BigDecimal.fromStr "reee" = none ∧ pretty_price "reee" = "NaN" ∧
    BigDecimal.fromStr "12.5" = some ⟨125, 1⟩ ∧
    pretty_price "12.5" = "$12.50" ∧
    (∃ (pre : List Char) (a b : Char),
        pretty_price "12.5" = ⟨'$' :: (pre ++ '.' :: [a, b])⟩ ∧
        isDigitChar a = true ∧ isDigitChar b = true) :=
  ⟨by decide, C10_template_filters_total.2.1 "reee" (by decide),
   by decide, by decide,
   C10_template_filters_total.2.2 "12.5" ⟨125, 1⟩ (by decide)⟩
